import Mathlib

/-!
# LAF OS library: `os/common/system.cpp`

A shallow embedding of the surface import converter (`get_rgba32`,
`get_rgba24`, `get_rgba16`, `CommonSystem::makeSurface`) and of the
process-wide system registry (`System::instance`, `System::make`,
`CommonSystem::CommonSystem`, `CommonSystem::~CommonSystem`,
`CommonSystem::destroyInstance`).

Conventions of the embedding:

* `unsigned long` is 64 bits wide (LP64), `int` and `uint32_t` are 32 bits
  wide with two's complement wrap-around, and scalars are loaded from memory
  in little-endian byte order.
* Image memory is a map from byte offsets (relative to `image.data()`) to
  bytes; the converter never consults the size of the buffer.
* An integer division by zero and a failed `ASSERT` end the execution with a
  `Fault`.
-/

namespace os

/-! ## Machine integers -/

/-- Conversion of an `unsigned long` value to `int` (keeps the low 32 bits,
two's complement). -/
def to_int (x : Nat) : Int :=
  if x % 2 ^ 32 < 2 ^ 31 then ((x % 2 ^ 32 : Nat) : Int) else ((x % 2 ^ 32 : Nat) : Int) - 2 ^ 32

/-- Conversion of an `int` to `unsigned long` (the usual arithmetic conversion
applied to `*a` in `x * (*a)`). -/
def to_ulong (i : Int) : Nat := (i % 2 ^ 64).toNat

/-- Conversion of an `int` to `uint32_t` (the bit pattern of the `int`). -/
def to_u32 (i : Int) : Nat := (i % 2 ^ 32).toNat

/-- Product of two `unsigned long` values. -/
def ulong_mul (x y : Nat) : Nat := (x * y) % 2 ^ 64

/-! ## Source image -/

/-- The descriptor `clip::image_spec`; every field is an `unsigned long`. -/
structure image_spec where
  width : Nat
  height : Nat
  bits_per_pixel : Nat
  bytes_per_row : Nat
  red_mask : Nat
  green_mask : Nat
  blue_mask : Nat
  alpha_mask : Nat
  red_shift : Nat
  green_shift : Nat
  blue_shift : Nat
  alpha_shift : Nat
deriving DecidableEq, Repr

/-- A `clip::image`: its descriptor and the memory that `image.data()` points
to, as a map from byte offset to byte. -/
structure image where
  spec : image_spec
  data : Nat → Nat

/-- The byte at `addr`. -/
def load_u8 (data : Nat → Nat) (addr : Nat) : Nat := data addr % 256

/-- The load `*((uint16_t*)scanlineAddr)`. -/
def load_u16 (data : Nat → Nat) (addr : Nat) : Nat :=
  load_u8 data addr + 256 * load_u8 data (addr + 1)

/-- The load `*((uint32_t*)scanlineAddr)`. -/
def load_u32 (data : Nat → Nat) (addr : Nat) : Nat :=
  load_u8 data addr + 256 * load_u8 data (addr + 1) + 65536 * load_u8 data (addr + 2)
    + 16777216 * load_u8 data (addr + 3)

/-- The raw channel `(c & mask) >> shift`. -/
def channel (c mask shift : Nat) : Nat := (c &&& mask) >>> shift

/-- The four `int` outputs `*r`, `*g`, `*b`, `*a` of an extraction function. -/
structure RGBA where
  r : Int
  g : Int
  b : Int
  a : Int
deriving DecidableEq, Repr

/-- How an execution can end without returning. -/
inductive Fault where
  | assertion
  | division_by_zero
deriving DecidableEq, Repr

/-- The alpha value computed by `get_rgba32`. -/
def get_alpha32 (spec : image_spec) (c : Nat) : Int :=
  if spec.alpha_mask ≠ 0 then to_int (channel c spec.alpha_mask spec.alpha_shift) else 255

/-- The function `get_rgba32`: the alpha is read through the alpha mask (255
when there is none) and the colour channels are premultiplied by it. -/
def get_rgba32 (spec : image_spec) (data : Nat → Nat) (addr : Nat) : RGBA :=
  let c := load_u32 data addr
  let a := get_alpha32 spec c
  { r := to_int (ulong_mul (channel c spec.red_mask spec.red_shift) (to_ulong a) / 255)
    g := to_int (ulong_mul (channel c spec.green_mask spec.green_shift) (to_ulong a) / 255)
    b := to_int (ulong_mul (channel c spec.blue_mask spec.blue_shift) (to_ulong a) / 255)
    a := a }

/-- The function `get_rgba24`; it loads a full `uint32_t` at the pixel. -/
def get_rgba24 (spec : image_spec) (data : Nat → Nat) (addr : Nat) : RGBA :=
  let c := load_u32 data addr
  { r := to_int (channel c spec.red_mask spec.red_shift)
    g := to_int (channel c spec.green_mask spec.green_shift)
    b := to_int (channel c spec.blue_mask spec.blue_shift)
    a := 255 }

/-- One channel of `get_rgba16`: `((c & mask) >> shift) * 255 / (mask >> shift)`. -/
def rescale16 (c mask shift : Nat) : Except Fault Int :=
  if mask >>> shift = 0 then Except.error Fault.division_by_zero
  else Except.ok (to_int (ulong_mul (channel c mask shift) 255 / (mask >>> shift)))

/-- The function `get_rgba16`. -/
def get_rgba16 (spec : image_spec) (data : Nat → Nat) (addr : Nat) : Except Fault RGBA :=
  let c := load_u16 data addr
  match rescale16 c spec.red_mask spec.red_shift with
  | Except.error f => Except.error f
  | Except.ok r =>
    match rescale16 c spec.green_mask spec.green_shift with
    | Except.error f => Except.error f
    | Except.ok g =>
      match rescale16 c spec.blue_mask spec.blue_shift with
      | Except.error f => Except.error f
      | Except.ok b => Except.ok { r := r, g := g, b := b, a := 255 }

/-! ## Destination surface and `CommonSystem::makeSurface` -/

/-- The channel shifts reported by `Surface::getFormat`. -/
structure SurfaceFormatData where
  redShift : Nat
  greenShift : Nat
  blueShift : Nat
  alphaShift : Nat
deriving DecidableEq, Repr

/-- A destination surface: its format and its 32-bit cells, where
`pixels v u` is the cell `((uint32_t*)getData(0, v))[u]`. -/
structure Surface where
  format : SurfaceFormatData
  pixels : Nat → Nat → Nat

/-- The store `*dst = value` with `dst` at column `u` of row `v`. -/
def Surface.put (s : Surface) (v u value : Nat) : Surface :=
  { s with pixels := fun v1 u1 => if v1 = v ∧ u1 = u then value else s.pixels v1 u1 }

/-- The `uint32_t` stored for one pixel:
`(r << redShift) | (g << greenShift) | (b << blueShift) | (a << alphaShift)`. -/
def pack (sfd : SurfaceFormatData) (px : RGBA) : Nat :=
  ((to_u32 px.r <<< sfd.redShift) ||| (to_u32 px.g <<< sfd.greenShift)
    ||| (to_u32 px.b <<< sfd.blueShift) ||| (to_u32 px.a <<< sfd.alphaShift)) % 2 ^ 32

/-- The function pointer `get_rgba` chosen by the `switch` of `makeSurface`;
behind the guard on `bits_per_pixel` the last case is the 16-bit one. -/
def get_rgba (spec : image_spec) (data : Nat → Nat) (addr : Nat) : Except Fault RGBA :=
  if spec.bits_per_pixel = 32 then Except.ok (get_rgba32 spec data addr)
  else if spec.bits_per_pixel = 24 then Except.ok (get_rgba24 spec data addr)
  else get_rgba16 spec data addr

/-- The inner loop `for (u = 0; u < spec.width; ++u, ++dst)` of `makeSurface`,
with `n` iterations left, the column `u` of `dst` and the offset `src`. -/
def scan_columns (img : image) (sfd : SurfaceFormatData) (v : Nat) :
    Nat → Nat → Nat → Surface → Except Fault Surface
  | 0, _, _, s => Except.ok s
  | n + 1, u, src, s =>
    match get_rgba img.spec img.data src with
    | Except.error f => Except.error f
    | Except.ok px =>
      scan_columns img sfd v n (u + 1) (src + img.spec.bits_per_pixel / 8)
        (s.put v u (pack sfd px))

/-- The outer loop `for (v = 0; v < spec.height; ++v)` of `makeSurface`, with
`n` iterations left; each row starts at `src = data + v * bytes_per_row`. -/
def scan_rows (img : image) (sfd : SurfaceFormatData) :
    Nat → Nat → Surface → Except Fault Surface
  | 0, _, s => Except.ok s
  | n + 1, v, s =>
    match scan_columns img sfd v img.spec.width 0 (v * img.spec.bytes_per_row) s with
    | Except.error f => Except.error f
    | Except.ok s1 => scan_rows img sfd n (v + 1) s1

/-- What a run of `makeSurface` does: the calls of `makeRgbaSurface` it makes
(with their arguments) and how it ends; `Except.ok none` is `nullptr`. -/
structure SurfaceRun where
  calls : List (Nat × Nat)
  ret : Except Fault (Option Surface)

/-- The method `CommonSystem::makeSurface`, over the allocator
`makeRgbaSurface` of the running system. -/
def makeSurface (makeRgbaSurface : Nat → Nat → Surface) (img : image) : SurfaceRun :=
  let spec := img.spec
  if spec.bits_per_pixel ≠ 32 ∧ spec.bits_per_pixel ≠ 24 ∧ spec.bits_per_pixel ≠ 16 then
    { calls := [], ret := Except.ok none }
  else
    let surface := makeRgbaSurface spec.width spec.height
    let sfd := surface.format
    { calls := [(spec.width, spec.height)]
      ret :=
        match scan_rows img sfd spec.height 0 surface with
        | Except.error f => Except.error f
        | Except.ok s => Except.ok (some s) }

/-! ## The system registry -/

/-- The backend factories `makeSkia`, `makeWin`, `makeOSX`, `makeX11`,
`makeNone`. -/
inductive Backend where
  | skia
  | win
  | osx
  | x11
  | none
deriving DecidableEq, Repr

/-- The build configuration (`LAF_SKIA`, `LAF_WINDOWS`, `LAF_MACOS`,
`LAF_LINUX`) and which backends are available in the environment. -/
structure Env where
  LAF_SKIA : Bool
  LAF_WINDOWS : Bool
  LAF_MACOS : Bool
  LAF_LINUX : Bool
  available : Backend → Bool

/-- Modelled from the spec: a pending entry of the event queue (the queue is
not part of this file). Destroying an entry runs a handler, which either
leaves the registry alone (`plain`) or calls `System::instance()`
(`lookup`). -/
inductive Pending where
  | plain
  | lookup
deriving DecidableEq, Repr

/-- The calls into collaborators that a run makes, in order. A drain and a
handler are recorded with the registry pointer and the
destruction-in-progress flag at the time they start. -/
inductive Call where
  | factory (b : Backend)
  | clearEvents (g_instance : Option Nat) (g_is_being_destroyed : Bool)
  | handler (g_instance : Option Nat) (g_is_being_destroyed : Bool)
deriving DecidableEq, Repr

/-- The process-wide state: the globals `g_instance` (an object identity, or
`none` for `nullptr`) and `g_is_being_destroyed`, the number of system
objects constructed so far (the identity of the next one), the pending
events, and the calls made so far. -/
structure World where
  g_instance : Option Nat
  g_is_being_destroyed : Bool
  constructed : Nat
  queue : List Pending
  log : List Call
deriving DecidableEq, Repr

/-- The state of a fresh process. -/
def World.initial : World :=
  { g_instance := none, g_is_being_destroyed := false, constructed := 0, queue := [], log := [] }

/-- The function `System::instance`; `AddRef(g_instance)` is the reference to
the registered object. -/
def System_instance (w : World) : Except Fault (Option Nat) :=
  if w.g_is_being_destroyed then Except.error Fault.assertion
  else w.g_instance.elim (Except.ok none) (fun p => Except.ok (some p))

/-- The constructor `CommonSystem::CommonSystem`. -/
def CommonSystem_ctor (w : World) : World :=
  { w with g_is_being_destroyed := false }

/-- Modelled from the spec: a backend factory (`makeSkia`, `makeWin`,
`makeOSX`, `makeX11`, `makeNone`; none of them is in this file) returns
either a fully constructed instance, built through the `CommonSystem`
constructor, or an empty result when the backend is unavailable; the null
backend factory never fails. -/
def call_factory (env : Env) (b : Backend) (w : World) : Option Nat × World :=
  let w1 := { w with log := w.log ++ [Call.factory b] }
  if b = Backend.none ∨ env.available b = true then
    (some w1.constructed, CommonSystem_ctor { w1 with constructed := w1.constructed + 1 })
  else (none, w1)

/-- The statement `if (!ref) ref = System::makeX();`. -/
def try_factory (env : Env) (b : Backend) (p : Option Nat × World) : Option Nat × World :=
  if p.1 = none then call_factory env b p.2 else p

/-- The function `System::make`. -/
def System_make (env : Env) (w : World) : Except Fault (Option Nat × World) :=
  if w.g_instance ≠ none then Except.error Fault.assertion
  else
    let p0 : Option Nat × World := (none, w)
    let p1 := if env.LAF_SKIA then call_factory env Backend.skia p0.2 else p0
    let p2 :=
      if env.LAF_WINDOWS then try_factory env Backend.win p1
      else if env.LAF_MACOS then try_factory env Backend.osx p1
      else if env.LAF_LINUX then try_factory env Backend.x11 p1
      else p1
    let p3 := try_factory env Backend.none p2
    let w3 := if p3.2.g_instance = none then { p3.2 with g_instance := p3.1 } else p3.2
    Except.ok (p3.1, w3)

/-- Modelled from the spec: the handlers run by `clearEvents`, one for each
pending entry, in queue order. -/
def run_handlers (w : World) : List Pending → Except Fault World
  | [] => Except.ok w
  | p :: ps =>
    let w1 :=
      { w with log := w.log ++ [Call.handler w.g_instance w.g_is_being_destroyed] }
    match p with
    | Pending.plain => run_handlers w1 ps
    | Pending.lookup =>
      match System_instance w1 with
      | Except.error f => Except.error f
      | Except.ok _ => run_handlers w1 ps

/-- Modelled from the spec: `eventQueue()->clearEvents()`, a synchronous drain
that destroys every pending entry and returns with an empty queue. -/
def clearEvents (w : World) : Except Fault World :=
  run_handlers
    { w with
      queue := []
      log := w.log ++ [Call.clearEvents w.g_instance w.g_is_being_destroyed] }
    w.queue

/-- The method `CommonSystem::destroyInstance` of the object `this`. -/
def destroyInstance (this : Nat) (w : World) : Except Fault World :=
  if w.g_instance ≠ some this then
    if w.g_is_being_destroyed then Except.ok w else Except.error Fault.assertion
  else
    match clearEvents { w with g_is_being_destroyed := true } with
    | Except.error f => Except.error f
    | Except.ok w2 => Except.ok { w2 with g_instance := none }

/-- The destructor `CommonSystem::~CommonSystem` of the object `this`. -/
def CommonSystem_dtor (this : Nat) (w : World) : Except Fault World :=
  if w.g_instance = some this then destroyInstance this w else Except.ok w

/-- Modelled from the spec: the destructor chain run when the last strong
reference to `this` is released. The destructor of the most-derived backend
class (not in this file) calls `destroyInstance` when `derived_calls` is
set, then the base destructor runs. -/
def release_last (derived_calls : Bool) (this : Nat) (w : World) : Except Fault World :=
  match (if derived_calls then destroyInstance this w else Except.ok w) with
  | Except.error f => Except.error f
  | Except.ok w1 => CommonSystem_dtor this w1

/-- The number of `clearEvents` calls in a log. -/
def drains (log : List Call) : Nat :=
  (log.filter fun c => match c with
    | Call.clearEvents _ _ => true
    | _ => false).length

/-! ## The bytes read by `makeSurface` -/

/-- The byte offsets read by the load `*((uint16_t*)scanlineAddr)`. -/
def load_u16_reads (addr : Nat) : List Nat := [addr, addr + 1]

/-- The byte offsets read by the load `*((uint32_t*)scanlineAddr)`. -/
def load_u32_reads (addr : Nat) : List Nat := [addr, addr + 1, addr + 2, addr + 3]

/-- The byte offsets read by the function `get_rgba` selected by
`makeSurface`: `get_rgba32` and `get_rgba24` load a `uint32_t`, `get_rgba16`
loads a `uint16_t`. -/
def get_rgba_reads (spec : image_spec) (addr : Nat) : List Nat :=
  if spec.bits_per_pixel = 32 then load_u32_reads addr
  else if spec.bits_per_pixel = 24 then load_u32_reads addr
  else load_u16_reads addr

/-- The byte offsets read by the inner loop of `makeSurface` with `n`
iterations left and the offset `src`. -/
def scan_columns_reads (spec : image_spec) : Nat → Nat → List Nat
  | 0, _ => []
  | n + 1, src =>
    get_rgba_reads spec src ++ scan_columns_reads spec n (src + spec.bits_per_pixel / 8)

/-- The byte offsets read by the outer loop of `makeSurface` with `n`
iterations left, from row `v` on. -/
def scan_rows_reads (spec : image_spec) : Nat → Nat → List Nat
  | 0, _ => []
  | n + 1, v =>
    scan_columns_reads spec spec.width (v * spec.bytes_per_row)
      ++ scan_rows_reads spec n (v + 1)

/-- The byte offsets of the source that a run of `makeSurface` reads when
every extraction returns. -/
def makeSurface_reads (spec : image_spec) : List Nat :=
  if spec.bits_per_pixel ≠ 32 ∧ spec.bits_per_pixel ≠ 24 ∧ spec.bits_per_pixel ≠ 16 then []
  else scan_rows_reads spec spec.height 0

/-! ## `CommonSystem::keyModifiers` -/

/-- The scancodes polled by `keyModifiers`. -/
inductive KeyScancode where
  | kKeyLShift
  | kKeyRShift
  | kKeyLControl
  | kKeyRControl
  | kKeyAlt
  | kKeyAltGr
  | kKeyCommand
  | kKeySpace
  | kKeyLWin
  | kKeyRWin
deriving DecidableEq, Repr

/-- The values of the `KeyModifiers` constants used by `keyModifiers`; the
enumeration itself is declared in `os/keys.h`. -/
structure KeyModifierValues where
  kKeyShiftModifier : Nat
  kKeyCtrlModifier : Nat
  kKeyAltModifier : Nat
  kKeyCmdModifier : Nat
  kKeySpaceModifier : Nat
  kKeyWinModifier : Nat
deriving DecidableEq, Repr

/-- Constants that are the single bits at the positions `s`, `c`, `a`, `m`,
`p`, `w`. -/
def single_bit_modifiers (s c a m p w : Nat) : KeyModifierValues :=
  { kKeyShiftModifier := 2 ^ s, kKeyCtrlModifier := 2 ^ c, kKeyAltModifier := 2 ^ a
    kKeyCmdModifier := 2 ^ m, kKeySpaceModifier := 2 ^ p, kKeyWinModifier := 2 ^ w }

/-- The method `CommonSystem::keyModifiers`, over the poll `isKeyPressed` of
the running system. -/
def keyModifiers (k : KeyModifierValues) (isKeyPressed : KeyScancode → Bool) : Nat :=
  (if isKeyPressed KeyScancode.kKeyLShift || isKeyPressed KeyScancode.kKeyRShift
    then k.kKeyShiftModifier else 0)
  ||| (if isKeyPressed KeyScancode.kKeyLControl || isKeyPressed KeyScancode.kKeyRControl
    then k.kKeyCtrlModifier else 0)
  ||| (if isKeyPressed KeyScancode.kKeyAlt then k.kKeyAltModifier else 0)
  ||| (if isKeyPressed KeyScancode.kKeyAltGr then (k.kKeyCtrlModifier ||| k.kKeyAltModifier)
    else 0)
  ||| (if isKeyPressed KeyScancode.kKeyCommand then k.kKeyCmdModifier else 0)
  ||| (if isKeyPressed KeyScancode.kKeySpace then k.kKeySpaceModifier else 0)
  ||| (if isKeyPressed KeyScancode.kKeyLWin || isKeyPressed KeyScancode.kKeyRWin
    then k.kKeyWinModifier else 0)

/-! ## The life cycle of the registry -/

/-- The process-wide states of the specification. -/
inductive Phase where
  | Absent
  | Alive
  | Destroying
deriving DecidableEq, Repr

/-- The process-wide state that the two globals stand for: no registered
instance, a registered instance, or a registered instance in teardown. -/
def phase (g_instance : Option Nat) (g_is_being_destroyed : Bool) : Phase :=
  match g_instance with
  | none => Phase.Absent
  | some _ => if g_is_being_destroyed then Phase.Destroying else Phase.Alive

/-- The phase in which a logged drain or handler started; a factory call
records none. -/
def Call.phase : Call → Option Phase
  | Call.factory _ => none
  | Call.clearEvents g f => some (os.phase g f)
  | Call.handler g f => some (os.phase g f)

/-- The states reachable from the initial state by complete operations,
together with the objects that have been made and have not finished their
teardown: `make()` returning an object, the destructor chain of such an
object running to its end, and events being posted to the queue. -/
inductive Reachable (env : Env) : World → List Nat → Prop where
  | initial : Reachable env World.initial []
  | make (w w1 : World) (live : List Nat) (id : Nat) :
      Reachable env w live → System_make env w = Except.ok (some id, w1) →
      Reachable env w1 (id :: live)
  | release (w w1 : World) (live : List Nat) (d : Bool) (this : Nat) :
      Reachable env w live → this ∈ live → release_last d this w = Except.ok w1 →
      Reachable env w1 (live.erase this)
  | post (w : World) (live : List Nat) (q : List Pending) :
      Reachable env w live → Reachable env { w with queue := q } live

end os

namespace text

/-! ## `text::Font` (`text/font.h`) -/

/-- The class `text::Font`: the pure virtual `codePointToGlyph`, the state of
the derived class behind the other virtual methods, and the member
`m_fallback` (a `Font*`, as an object identity, `none` for `nullptr`). -/
structure Font (Derived : Type) where
  codePointToGlyph : Nat → Nat
  derived : Derived
  m_fallback : Option Nat

/-- The constructor `Font() : m_fallback(nullptr)`, under the derived class
that supplies `codePointToGlyph`. -/
def Font.create {Derived : Type} (codePointToGlyph : Nat → Nat) (derived : Derived) :
    Font Derived :=
  { codePointToGlyph := codePointToGlyph, derived := derived, m_fallback := none }

/-- The method `hasCodePoint`. -/
def Font.hasCodePoint {Derived : Type} (f : Font Derived) (cp : Nat) : Bool :=
  f.codePointToGlyph cp != 0

/-- The method `fallback`. -/
def Font.fallback {Derived : Type} (f : Font Derived) : Option Nat := f.m_fallback

/-- The method `setFallback`. -/
def Font.setFallback {Derived : Type} (f : Font Derived) (font : Option Nat) : Font Derived :=
  { f with m_fallback := font }

/-- A font with glyphs for the code points 65 to 90 only. -/
def capitals_font : Font Unit :=
  Font.create (fun cp => if 65 ≤ cp ∧ cp ≤ 90 then cp - 64 else 0) ()

end text

namespace os

/-! ## Auxiliary predicates and states -/

/-- The precondition of the 16-bit path: no colour channel has the maximum
`mask >> shift = 0`. -/
def channels16_nonzero (spec : image_spec) : Prop :=
  spec.red_mask >>> spec.red_shift ≠ 0 ∧ spec.green_mask >>> spec.green_shift ≠ 0
    ∧ spec.blue_mask >>> spec.blue_shift ≠ 0

instance (spec : image_spec) : Decidable (channels16_nonzero spec) := by
  unfold channels16_nonzero
  infer_instance

/-- The state in which a completed `destroyInstance` of the registered object
`this` leaves `w`: flag set, queue drained, pointer cleared, and in the log
the drain and one handler for each pending entry, each of them started with
the pointer still at `this` and the flag already set. -/
def torn_down (this : Nat) (w : World) : World :=
  { g_instance := none
    g_is_being_destroyed := true
    constructed := w.constructed
    queue := []
    log := w.log ++ Call.clearEvents (some this) true
      :: List.replicate w.queue.length (Call.handler (some this) true) }

/-! ## The backend selector, as the specification words it -/

/-- Whether the factory of a backend returns a non-empty result. -/
def succeeds (env : Env) (b : Backend) : Prop := b = Backend.none ∨ env.available b = true

instance (env : Env) (b : Backend) : Decidable (succeeds env b) := by
  unfold succeeds
  infer_instance

/-- The compiled-in factories in their priority order: the accelerated
backend, then the platform-native backend, then the null backend. -/
def selector_order (env : Env) : List Backend :=
  (if env.LAF_SKIA then [Backend.skia] else [])
    ++ (if env.LAF_WINDOWS then [Backend.win]
        else if env.LAF_MACOS then [Backend.osx]
        else if env.LAF_LINUX then [Backend.x11]
        else [])
    ++ [Backend.none]

/-- The selector of the specification: try each factory of the list in turn
until a reference is held. -/
def run_selector (env : Env) : List Backend → Option Nat × World → Option Nat × World
  | [], p => p
  | b :: bs, p => run_selector env bs (try_factory env b p)

/-- The registration `if (!g_instance) g_instance = ref.get();` that ends
`System::make`. -/
def register (p : Option Nat × World) : Option Nat × World :=
  (p.1, if p.2.g_instance = none then { p.2 with g_instance := p.1 } else p.2)

/-! ## Sample inputs -/

/-- A Linux build with the accelerated backend compiled in, run where only
the X11 backend is available. -/
def linux_env : Env :=
  { LAF_SKIA := true, LAF_WINDOWS := false, LAF_MACOS := false, LAF_LINUX := true
    available := fun b => decide (b = Backend.x11) }

/-- A build with no accelerated and no native backend. -/
def headless_env : Env :=
  { LAF_SKIA := false, LAF_WINDOWS := false, LAF_MACOS := false, LAF_LINUX := false
    available := fun _ => false }


/-- A 32-bit descriptor with 8-bit channels in the order A, R, G, B (from the
most significant byte down) for a 1x1 image. -/
def argb_spec : image_spec :=
  { width := 1, height := 1, bits_per_pixel := 32, bytes_per_row := 4
    red_mask := 0xFF0000, green_mask := 0xFF00, blue_mask := 0xFF, alpha_mask := 0xFF000000
    red_shift := 16, green_shift := 8, blue_shift := 0, alpha_shift := 24 }

/-- Memory holding the pixel `0x80C86432`: straight-alpha r = 200, g = 100,
b = 50, a = 128. -/
def argb_data : Nat → Nat := fun i => [0x32, 0x64, 0xC8, 0x80].getD i 0

/-- An allocator whose surfaces use the channel order R, G, B, A (from the
least significant byte up) and start out with every cell zero. -/
def blank_surface (_width _height : Nat) : Surface :=
  { format := { redShift := 0, greenShift := 8, blueShift := 16, alphaShift := 24 }
    pixels := fun _ _ => 0 }

/-- A 1x1 16-bit image whose descriptor has no red channel
(`red_mask = 0`). -/
def no_red16_image : image :=
  { spec :=
      { width := 1, height := 1, bits_per_pixel := 16, bytes_per_row := 2
        red_mask := 0, green_mask := 0x7E0, blue_mask := 0x1F, alpha_mask := 0
        red_shift := 11, green_shift := 5, blue_shift := 0, alpha_shift := 0 }
    data := fun _ => 0 }

/-- A 32-bit image one pixel wide and two rows high whose rows are 8 bytes
apart: each row is one pixel followed by four bytes of padding. -/
def padded_image : image :=
  { spec :=
      { width := 1, height := 2, bits_per_pixel := 32, bytes_per_row := 8
        red_mask := 0xFF0000, green_mask := 0xFF00, blue_mask := 0xFF, alpha_mask := 0xFF000000
        red_shift := 16, green_shift := 8, blue_shift := 0, alpha_shift := 24 }
    data := fun i =>
      [0x03, 0x02, 0x01, 0xFF, 0xAA, 0xAA, 0xAA, 0xAA,
       0x30, 0x20, 0x10, 0xFF, 0xBB, 0xBB, 0xBB, 0xBB].getD i 0 }

/-- A 1x1 image with 8 bits per pixel. -/
def indexed8_image : image :=
  { spec :=
      { width := 1, height := 1, bits_per_pixel := 8, bytes_per_row := 1
        red_mask := 0, green_mask := 0, blue_mask := 0, alpha_mask := 0
        red_shift := 0, green_shift := 0, blue_shift := 0, alpha_shift := 0 }
    data := fun _ => 0 }

/-- The state right after the first `make()` of a headless process: object 0
is registered. -/
def alive_world : World :=
  { g_instance := some 0, g_is_being_destroyed := false, constructed := 1, queue := []
    log := [Call.factory Backend.none] }

/-- The state after object 0 of `alive_world` has been torn down. -/
def gone_world : World :=
  { g_instance := none, g_is_being_destroyed := true, constructed := 1, queue := []
    log := [Call.factory Backend.none, Call.clearEvents (some 0) true] }

/-- A state with object 0 registered and two pending events whose handlers
leave the registry alone. -/
def busy_world : World :=
  { g_instance := some 0, g_is_being_destroyed := false, constructed := 1
    queue := [Pending.plain, Pending.plain], log := [Call.factory Backend.none] }

/-- A state with object 0 registered and a pending event whose handler calls
`System::instance()`. -/
def reentrant_world : World :=
  { g_instance := some 0, g_is_being_destroyed := false, constructed := 1
    queue := [Pending.plain, Pending.lookup], log := [Call.factory Backend.none] }

/-- A 16-bit descriptor in the layout 5-6-5 (red in the top five bits) for a
1x1 image. -/
def rgb565_spec : image_spec :=
  { width := 1, height := 1, bits_per_pixel := 16, bytes_per_row := 2
    red_mask := 0xF800, green_mask := 0x7E0, blue_mask := 0x1F, alpha_mask := 0
    red_shift := 11, green_shift := 5, blue_shift := 0, alpha_shift := 0 }

/-- Memory holding the 16-bit pixel `0xF800`: raw red 31, green 0, blue 0. -/
def red565_data : Nat → Nat := fun i => [0x00, 0xF8].getD i 0

/-- Memory holding the 16-bit pixel `0x07FF`: raw red 0, green 63, blue 31. -/
def cyan565_data : Nat → Nat := fun i => [0xFF, 0x07].getD i 0

/-- A 24-bit descriptor for a 1x1 image whose only row takes exactly the
three bytes of its pixel, so that the buffer has `1 * 3 = 3` bytes. -/
def tight24_spec : image_spec :=
  { width := 1, height := 1, bits_per_pixel := 24, bytes_per_row := 3
    red_mask := 0xFF0000, green_mask := 0xFF00, blue_mask := 0xFF, alpha_mask := 0
    red_shift := 16, green_shift := 8, blue_shift := 0, alpha_shift := 0 }

/-- A 32-bit descriptor without alpha mask for a 1x1 image. -/
def xrgb_spec : image_spec :=
  { width := 1, height := 1, bits_per_pixel := 32, bytes_per_row := 4
    red_mask := 0xFF0000, green_mask := 0xFF00, blue_mask := 0xFF, alpha_mask := 0
    red_shift := 16, green_shift := 8, blue_shift := 0, alpha_shift := 0 }

/-- A 24-bit descriptor whose red mask selects the top byte of the loaded
`uint32_t`, unshifted. -/
def high_red24_spec : image_spec :=
  { width := 1, height := 1, bits_per_pixel := 24, bytes_per_row := 4
    red_mask := 0xFF000000, green_mask := 0xFF00, blue_mask := 0xFF, alpha_mask := 0
    red_shift := 0, green_shift := 8, blue_shift := 0, alpha_shift := 0 }

/-- Memory holding the bytes `00 00 00 80`, loaded as `0x80000000`. -/
def high_red24_data : Nat → Nat := fun i => [0x00, 0x00, 0x00, 0x80].getD i 0

/-- The values of the modifier constants in the library: the bits 0 to 5. -/
def laf_modifiers : KeyModifierValues := single_bit_modifiers 0 1 2 3 4 5

/-- A keyboard with only AltGr held down. -/
def altgr_only : KeyScancode → Bool := fun k => decide (k = KeyScancode.kKeyAltGr)

/-! ## Machine integer lemmas -/

theorem to_int_of_lt (x : Nat) (h : x < 2 ^ 31) : to_int x = (x : Int) := by
  have h1 : x % 2 ^ 32 = x := Nat.mod_eq_of_lt (by omega)
  unfold to_int
  rw [h1, if_pos h]

theorem to_ulong_natCast (x : Nat) (h : x < 2 ^ 64) : to_ulong (x : Int) = x := by
  unfold to_ulong
  have h2 : ((x : Int) % 2 ^ 64) = (x : Int) := by
    apply Int.emod_eq_of_lt
    · exact Int.natCast_nonneg x
    · exact_mod_cast h
  rw [h2, Int.toNat_natCast]

theorem ulong_mul_of_le (x y : Nat) (hx : x ≤ 255) (hy : y ≤ 255) :
    ulong_mul x y = x * y := by
  unfold ulong_mul
  apply Nat.mod_eq_of_lt
  have : x * y ≤ 255 * 255 := Nat.mul_le_mul hx hy
  omega

/-- The premultiplied channel of `get_rgba32` for raw values of at most 255. -/
theorem premultiply_of_le (x a : Nat) (hx : x ≤ 255) (ha : a ≤ 255) :
    to_int (ulong_mul x (to_ulong (a : Int)) / 255) = ((x * a / 255 : Nat) : Int) := by
  rw [to_ulong_natCast a (by omega), ulong_mul_of_le x a hx ha]
  apply to_int_of_lt
  have h1 : x * a ≤ 255 * 255 := Nat.mul_le_mul hx ha
  have h2 : x * a / 255 ≤ 255 * 255 / 255 := Nat.div_le_div_right h1
  omega

/-! ## Channel extraction -/

/-- C1: when the descriptor has an alpha mask and the raw channels r, g, b, a
of a 32-bit pixel are at most 255, `get_rgba32` yields alpha a and the colour
channels floor(r*a/255), floor(g*a/255), floor(b*a/255); raw (200, 100, 50,
128) yields (100, 50, 25, 128). -/
theorem get_rgba32_premultiplies (spec : image_spec) (data : Nat → Nat) (addr : Nat)
    (hmask : spec.alpha_mask ≠ 0)
    (hr : channel (load_u32 data addr) spec.red_mask spec.red_shift ≤ 255)
    (hg : channel (load_u32 data addr) spec.green_mask spec.green_shift ≤ 255)
    (hb : channel (load_u32 data addr) spec.blue_mask spec.blue_shift ≤ 255)
    (ha : channel (load_u32 data addr) spec.alpha_mask spec.alpha_shift ≤ 255) :
    get_rgba32 spec data addr =
        { r := ((channel (load_u32 data addr) spec.red_mask spec.red_shift
                  * channel (load_u32 data addr) spec.alpha_mask spec.alpha_shift / 255 : Nat) : Int)
          g := ((channel (load_u32 data addr) spec.green_mask spec.green_shift
                  * channel (load_u32 data addr) spec.alpha_mask spec.alpha_shift / 255 : Nat) : Int)
          b := ((channel (load_u32 data addr) spec.blue_mask spec.blue_shift
                  * channel (load_u32 data addr) spec.alpha_mask spec.alpha_shift / 255 : Nat) : Int)
          a := ((channel (load_u32 data addr) spec.alpha_mask spec.alpha_shift : Nat) : Int) }
      ∧ (channel (load_u32 data addr) spec.red_mask spec.red_shift = 200 →
          channel (load_u32 data addr) spec.green_mask spec.green_shift = 100 →
          channel (load_u32 data addr) spec.blue_mask spec.blue_shift = 50 →
          channel (load_u32 data addr) spec.alpha_mask spec.alpha_shift = 128 →
          get_rgba32 spec data addr = { r := 100, g := 50, b := 25, a := 128 }) := by
  have halpha : get_alpha32 spec (load_u32 data addr)
      = ((channel (load_u32 data addr) spec.alpha_mask spec.alpha_shift : Nat) : Int) := by
    unfold get_alpha32
    rw [if_pos hmask]
    exact to_int_of_lt _ (by omega)
  have hgen : get_rgba32 spec data addr =
        { r := ((channel (load_u32 data addr) spec.red_mask spec.red_shift
                  * channel (load_u32 data addr) spec.alpha_mask spec.alpha_shift / 255 : Nat) : Int)
          g := ((channel (load_u32 data addr) spec.green_mask spec.green_shift
                  * channel (load_u32 data addr) spec.alpha_mask spec.alpha_shift / 255 : Nat) : Int)
          b := ((channel (load_u32 data addr) spec.blue_mask spec.blue_shift
                  * channel (load_u32 data addr) spec.alpha_mask spec.alpha_shift / 255 : Nat) : Int)
          a := ((channel (load_u32 data addr) spec.alpha_mask spec.alpha_shift : Nat) : Int) } := by
    unfold get_rgba32
    simp only [halpha]
    rw [premultiply_of_le _ _ hr ha, premultiply_of_le _ _ hg ha, premultiply_of_le _ _ hb ha]
  refine ⟨hgen, ?_⟩
  intro h200 h100 h50 h128
  rw [hgen, h200, h100, h50, h128]
  rfl

/-- Witness for C1: the pixel `0x80C86432` read through the A, R, G, B
descriptor. -/
theorem get_rgba32_premultiplies_witness :
    get_rgba32 argb_spec argb_data 0 = { r := 100, g := 50, b := 25, a := 128 } :=
  (get_rgba32_premultiplies argb_spec argb_data 0 (by decide) (by decide) (by decide)
    (by decide) (by decide)).2 (by decide) (by decide) (by decide) (by decide)

/-! ## The loops of `makeSurface` -/

theorem get_rgba16_ok (spec : image_spec) (data : Nat → Nat) (addr : Nat)
    (h : channels16_nonzero spec) : ∃ px, get_rgba16 spec data addr = Except.ok px := by
  obtain ⟨hr, hg, hb⟩ := h
  simp [get_rgba16, rescale16, hr, hg, hb]

theorem get_rgba_ok (spec : image_spec) (data : Nat → Nat) (addr : Nat)
    (h : spec.bits_per_pixel = 16 → channels16_nonzero spec)
    (hbpp : spec.bits_per_pixel = 16 ∨ spec.bits_per_pixel = 24 ∨ spec.bits_per_pixel = 32) :
    ∃ px, get_rgba spec data addr = Except.ok px := by
  unfold get_rgba
  rcases hbpp with h16 | h24 | h32
  · rw [if_neg (by omega), if_neg (by omega)]
    exact get_rgba16_ok spec data addr (h h16)
  · rw [if_neg (by omega), if_pos h24]
    exact ⟨_, rfl⟩
  · rw [if_pos h32]
    exact ⟨_, rfl⟩

/-- The inner loop returns whenever no extraction faults. -/
theorem scan_columns_returns (img : image) (sfd : SurfaceFormatData) (v : Nat)
    (hget : ∀ addr, ∃ px, get_rgba img.spec img.data addr = Except.ok px) :
    ∀ (n u src : Nat) (s : Surface), ∃ s1, scan_columns img sfd v n u src s = Except.ok s1 := by
  intro n
  induction n with
  | zero => intro u src s; exact ⟨s, rfl⟩
  | succ n ih =>
    intro u src s
    obtain ⟨px, hpx⟩ := hget src
    simp only [scan_columns, hpx]
    exact ih _ _ _

/-- The outer loop returns whenever no extraction faults. -/
theorem scan_rows_returns (img : image) (sfd : SurfaceFormatData)
    (hget : ∀ addr, ∃ px, get_rgba img.spec img.data addr = Except.ok px) :
    ∀ (n v : Nat) (s : Surface), ∃ s1, scan_rows img sfd n v s = Except.ok s1 := by
  intro n
  induction n with
  | zero => intro v s; exact ⟨s, rfl⟩
  | succ n ih =>
    intro v s
    obtain ⟨s1, hs1⟩ := scan_columns_returns img sfd v hget img.spec.width 0
      (v * img.spec.bytes_per_row) s
    simp only [scan_rows, hs1]
    exact ih _ _

/-- What the inner loop leaves behind: the format is kept, the cells of row
`v` in columns `u .. u + n - 1` hold the packed pixels read at
`src + k * (bits_per_pixel / 8)`, and no other cell changes. -/
theorem scan_columns_spec (img : image) (sfd : SurfaceFormatData) (v : Nat) :
    ∀ (n u src : Nat) (s s1 : Surface),
      scan_columns img sfd v n u src s = Except.ok s1 →
      s1.format = s.format
      ∧ (∀ v1 u1, ¬ (v1 = v ∧ u ≤ u1 ∧ u1 < u + n) → s1.pixels v1 u1 = s.pixels v1 u1)
      ∧ (∀ k, k < n → ∃ px,
          get_rgba img.spec img.data (src + k * (img.spec.bits_per_pixel / 8)) = Except.ok px
          ∧ s1.pixels v (u + k) = pack sfd px) := by
  intro n
  induction n with
  | zero =>
    intro u src s s1 h
    simp only [scan_columns, Except.ok.injEq] at h
    subst h
    exact ⟨rfl, fun _ _ _ => rfl, fun k hk => absurd hk (Nat.not_lt_zero k)⟩
  | succ n ih =>
    intro u src s s1 h
    rw [scan_columns] at h
    cases hpx : get_rgba img.spec img.data src with
    | error f => rw [hpx] at h; cases h
    | ok px =>
      rw [hpx] at h
      obtain ⟨hf, hout, hin⟩ := ih _ _ _ _ h
      refine ⟨hf, ?_, ?_⟩
      · intro v1 u1 hnot
        rw [hout v1 u1 (by omega)]
        simp only [Surface.put]
        rw [if_neg (by omega)]
      · intro k hk
        cases k with
        | zero =>
          refine ⟨px, by simpa using hpx, ?_⟩
          rw [Nat.add_zero, hout v u (by omega)]
          simp [Surface.put]
        | succ j =>
          obtain ⟨px1, hget1, hpix1⟩ := hin j (by omega)
          refine ⟨px1, ?_, ?_⟩
          · rw [← hget1]
            congr 1
            rw [Nat.succ_mul]
            omega
          · rw [← hpix1]
            congr 1
            omega

/-- What the outer loop leaves behind: the format is kept, the cell at
column `k < width` of each row `v + j`, `j < n`, holds the packed pixel read
at `(v + j) * bytes_per_row + k * (bits_per_pixel / 8)`, and no other cell
changes. -/
theorem scan_rows_spec (img : image) (sfd : SurfaceFormatData) :
    ∀ (n v : Nat) (s s1 : Surface),
      scan_rows img sfd n v s = Except.ok s1 →
      s1.format = s.format
      ∧ (∀ v1 u1, ¬ (v ≤ v1 ∧ v1 < v + n ∧ u1 < img.spec.width) →
          s1.pixels v1 u1 = s.pixels v1 u1)
      ∧ (∀ j k, j < n → k < img.spec.width → ∃ px,
          get_rgba img.spec img.data
            ((v + j) * img.spec.bytes_per_row + k * (img.spec.bits_per_pixel / 8)) = Except.ok px
          ∧ s1.pixels (v + j) k = pack sfd px) := by
  intro n
  induction n with
  | zero =>
    intro v s s1 h
    simp only [scan_rows, Except.ok.injEq] at h
    subst h
    exact ⟨rfl, fun _ _ _ => rfl, fun j k hj _ => absurd hj (Nat.not_lt_zero j)⟩
  | succ n ih =>
    intro v s s1 h
    rw [scan_rows] at h
    cases hrow : scan_columns img sfd v img.spec.width 0 (v * img.spec.bytes_per_row) s with
    | error f => rw [hrow] at h; cases h
    | ok s0 =>
      rw [hrow] at h
      obtain ⟨hf0, hout0, hin0⟩ := scan_columns_spec img sfd v _ _ _ _ _ hrow
      obtain ⟨hf, hout, hin⟩ := ih _ _ _ h
      refine ⟨hf.trans hf0, ?_, ?_⟩
      · intro v1 u1 hnot
        rw [hout v1 u1 (by omega), hout0 v1 u1 (by omega)]
      · intro j k hj hk
        cases j with
        | zero =>
          obtain ⟨px, hget, hpix⟩ := hin0 k hk
          refine ⟨px, by simpa using hget, ?_⟩
          rw [Nat.add_zero, hout v k (by omega)]
          simpa using hpix
        | succ i =>
          obtain ⟨px, hget, hpix⟩ := hin i k (by omega) hk
          have e : v + 1 + i = v + (i + 1) := by omega
          rw [e] at hget hpix
          exact ⟨px, hget, hpix⟩

/-! ## `CommonSystem::makeSurface` -/

theorem makeSurface_unsupported (alloc : Nat → Nat → Surface) (img : image)
    (h16 : img.spec.bits_per_pixel ≠ 16) (h24 : img.spec.bits_per_pixel ≠ 24)
    (h32 : img.spec.bits_per_pixel ≠ 32) :
    makeSurface alloc img = { calls := [], ret := Except.ok none } := by
  unfold makeSurface
  simp only
  rw [if_pos ⟨h32, h24, h16⟩]

theorem makeSurface_supported (alloc : Nat → Nat → Surface) (img : image)
    (hbpp : img.spec.bits_per_pixel = 16 ∨ img.spec.bits_per_pixel = 24
      ∨ img.spec.bits_per_pixel = 32) :
    makeSurface alloc img =
      { calls := [(img.spec.width, img.spec.height)]
        ret :=
          match scan_rows img (alloc img.spec.width img.spec.height).format img.spec.height 0
              (alloc img.spec.width img.spec.height) with
          | Except.error f => Except.error f
          | Except.ok s => Except.ok (some s) } := by
  unfold makeSurface
  simp only
  rw [if_neg (by omega)]

/-- C2 (amended): for a descriptor whose bits-per-pixel is not 16, 24 or 32,
`makeSurface` returns null and makes no allocator call; for 16, 24 or 32 it
calls the allocator exactly once, with the source width and height, and it
returns that surface (same format, no cell outside the image rectangle
touched) provided that a 16-bit descriptor has no colour channel with
`mask >> shift = 0`. -/
theorem makeSurface_dispatch (alloc : Nat → Nat → Surface) (img : image) :
    (img.spec.bits_per_pixel ≠ 16 → img.spec.bits_per_pixel ≠ 24 →
        img.spec.bits_per_pixel ≠ 32 →
        (makeSurface alloc img).calls = [] ∧ (makeSurface alloc img).ret = Except.ok none)
    ∧ (img.spec.bits_per_pixel = 16 ∨ img.spec.bits_per_pixel = 24
          ∨ img.spec.bits_per_pixel = 32 →
        (makeSurface alloc img).calls = [(img.spec.width, img.spec.height)]
        ∧ ((img.spec.bits_per_pixel = 16 → channels16_nonzero img.spec) →
            ∃ s, (makeSurface alloc img).ret = Except.ok (some s)
              ∧ s.format = (alloc img.spec.width img.spec.height).format
              ∧ ∀ v u, ¬ (v < img.spec.height ∧ u < img.spec.width) →
                  s.pixels v u = (alloc img.spec.width img.spec.height).pixels v u)) := by
  constructor
  · intro h16 h24 h32
    rw [makeSurface_unsupported alloc img h16 h24 h32]
    exact ⟨rfl, rfl⟩
  · intro hbpp
    rw [makeSurface_supported alloc img hbpp]
    refine ⟨rfl, ?_⟩
    intro hsafe
    obtain ⟨s, hs⟩ := scan_rows_returns img (alloc img.spec.width img.spec.height).format
      (fun addr => get_rgba_ok img.spec img.data addr hsafe hbpp) img.spec.height 0
      (alloc img.spec.width img.spec.height)
    obtain ⟨hf, hout, _⟩ := scan_rows_spec img _ _ _ _ _ hs
    refine ⟨s, ?_, hf, ?_⟩
    · simp only [hs]
    · intro v u hnot
      exact hout v u (by omega)

/-- Witness for C2: an 8-bit image is rejected without an allocator call, and
the padded 32-bit image is converted after one allocator call with (1, 2). -/
theorem makeSurface_dispatch_witness :
    ((makeSurface blank_surface indexed8_image).calls = []
        ∧ (makeSurface blank_surface indexed8_image).ret = Except.ok none)
    ∧ (makeSurface blank_surface padded_image).calls = [(1, 2)]
    ∧ ∃ s, (makeSurface blank_surface padded_image).ret = Except.ok (some s)
        ∧ s.format = (blank_surface 1 2).format
        ∧ ∀ v u, ¬ (v < 2 ∧ u < 1) → s.pixels v u = 0 :=
  ⟨(makeSurface_dispatch blank_surface indexed8_image).1 (by decide) (by decide) (by decide),
    ((makeSurface_dispatch blank_surface padded_image).2 (by decide)).1,
    ((makeSurface_dispatch blank_surface padded_image).2 (by decide)).2 (by decide)⟩

/-- C2 as stated fails: the 16-bit image without a red channel has a
supported depth and `makeSurface` calls the allocator, but it then divides
by zero in `get_rgba16` and returns no surface. -/
theorem makeSurface_no_red16_faults :
    no_red16_image.spec.bits_per_pixel = 16
    ∧ (makeSurface blank_surface no_red16_image).calls = [(1, 1)]
    ∧ (makeSurface blank_surface no_red16_image).ret = Except.error Fault.division_by_zero
    ∧ ¬ ∃ s, (makeSurface blank_surface no_red16_image).ret = Except.ok (some s) := by
  have h : (makeSurface blank_surface no_red16_image).ret
      = Except.error Fault.division_by_zero := rfl
  refine ⟨rfl, rfl, h, ?_⟩
  rintro ⟨s, hs⟩
  rw [h] at hs
  cases hs

/-- C3: for a supported depth, every surface returned by `makeSurface` holds
at column u < width of row v < height the packing (with the shifts of the
allocated surface) of the channels extracted by the selected function at
byte offset `v * bytes_per_row + u * (bits_per_pixel / 8)` of the source;
and a surface is returned whenever a 16-bit descriptor has no colour channel
with `mask >> shift = 0`. -/
theorem makeSurface_pixel_address (alloc : Nat → Nat → Surface) (img : image)
    (hbpp : img.spec.bits_per_pixel = 16 ∨ img.spec.bits_per_pixel = 24
      ∨ img.spec.bits_per_pixel = 32) :
    ((img.spec.bits_per_pixel = 16 → channels16_nonzero img.spec) →
        ∃ s, (makeSurface alloc img).ret = Except.ok (some s))
    ∧ ∀ s, (makeSurface alloc img).ret = Except.ok (some s) →
        ∀ v u, v < img.spec.height → u < img.spec.width →
          ∃ px,
            get_rgba img.spec img.data
              (v * img.spec.bytes_per_row + u * (img.spec.bits_per_pixel / 8)) = Except.ok px
            ∧ s.pixels v u = pack (alloc img.spec.width img.spec.height).format px := by
  rw [makeSurface_supported alloc img hbpp]
  constructor
  · intro hsafe
    obtain ⟨s, hs⟩ := scan_rows_returns img (alloc img.spec.width img.spec.height).format
      (fun addr => get_rgba_ok img.spec img.data addr hsafe hbpp) img.spec.height 0
      (alloc img.spec.width img.spec.height)
    exact ⟨s, by simp only [hs]⟩
  · intro s hs v u hv hu
    cases hrows : scan_rows img (alloc img.spec.width img.spec.height).format img.spec.height 0
        (alloc img.spec.width img.spec.height) with
    | error f => simp only [hrows] at hs; cases hs
    | ok s1 =>
      simp only [hrows, Except.ok.injEq, Option.some.injEq] at hs
      subst hs
      obtain ⟨_, _, hin⟩ := scan_rows_spec img _ _ _ _ _ hrows
      obtain ⟨px, hget, hpix⟩ := hin v u hv hu
      rw [Nat.zero_add] at hget hpix
      exact ⟨px, hget, hpix⟩

/-- Witness for C3: in the padded image (rows 8 bytes apart, 4 bytes of
pixels each) the pixel of row 1 is read at offset 8, behind the padding of
row 0, and rows keep their order. -/
theorem makeSurface_pixel_address_witness :
    ∃ s, (makeSurface blank_surface padded_image).ret = Except.ok (some s)
      ∧ s.pixels 0 0 = 0xFF030201 ∧ s.pixels 1 0 = 0xFF302010 := by
  obtain ⟨hret, hpix⟩ := makeSurface_pixel_address blank_surface padded_image (by decide)
  obtain ⟨s, hs⟩ := hret (by decide)
  refine ⟨s, hs, ?_, ?_⟩
  · obtain ⟨px, hget, hcell⟩ := hpix s hs 0 0 (by decide) (by decide)
    have h0 : get_rgba padded_image.spec padded_image.data 0
        = Except.ok { r := 1, g := 2, b := 3, a := 255 } := rfl
    have e : px = { r := 1, g := 2, b := 3, a := 255 } := by
      have := hget.symm.trans h0
      simpa using this
    rw [hcell, e]
    decide
  · obtain ⟨px, hget, hcell⟩ := hpix s hs 1 0 (by decide) (by decide)
    have h8 : get_rgba padded_image.spec padded_image.data 8
        = Except.ok { r := 16, g := 32, b := 48, a := 255 } := rfl
    have e : px = { r := 16, g := 32, b := 48, a := 255 } := by
      have := hget.symm.trans h8
      simpa using this
    rw [hcell, e]
    decide

/-! ## The backend selector -/

theorem call_factory_fail (env : Env) (b : Backend) (w : World) (h : ¬ succeeds env b) :
    call_factory env b w = (none, { w with log := w.log ++ [Call.factory b] }) := by
  unfold call_factory
  unfold succeeds at h
  simp only
  rw [if_neg h]

theorem call_factory_ok (env : Env) (b : Backend) (w : World) (h : succeeds env b) :
    call_factory env b w =
      (some w.constructed,
        { w with
          log := w.log ++ [Call.factory b]
          constructed := w.constructed + 1
          g_is_being_destroyed := false }) := by
  unfold call_factory
  unfold succeeds at h
  simp only
  rw [if_pos h]
  rfl

theorem run_selector_some (env : Env) (bs : List Backend) (p : Option Nat × World)
    (h : p.1 ≠ none) : run_selector env bs p = p := by
  induction bs with
  | nil => rfl
  | cons b bs ih =>
    have e : try_factory env b p = p := by
      unfold try_factory
      rw [if_neg h]
    rw [run_selector, e, ih]

/-- The selector returns what the first succeeding factory of the order
returns, after the failed calls before it and with no call after it. -/
theorem run_selector_first (env : Env) (b : Backend) (rest : List Backend) :
    ∀ (pre : List Backend) (w : World), (∀ x ∈ pre, ¬ succeeds env x) → succeeds env b →
      run_selector env (pre ++ b :: rest) (none, w)
        = call_factory env b { w with log := w.log ++ pre.map Call.factory } := by
  intro pre
  induction pre with
  | nil =>
    intro w _ hb
    have e : try_factory env b (none, w) = call_factory env b w := by
      unfold try_factory
      rw [if_pos rfl]
    rw [List.nil_append, run_selector, e, run_selector_some]
    · simp
    · rw [call_factory_ok env b w hb]
      simp
  | cons x pre ih =>
    intro w hpre hb
    have hx : ¬ succeeds env x := hpre x (List.mem_cons_self x pre)
    have e : try_factory env x (none, w)
        = (none, { w with log := w.log ++ [Call.factory x] }) := by
      unfold try_factory
      rw [if_pos rfl]
      exact call_factory_fail env x w hx
    rw [List.cons_append, run_selector, e,
      ih _ (fun y hy => hpre y (List.mem_cons_of_mem x hy)) hb]
    simp

/-- Every order that ends with the null backend has a first succeeding
factory. -/
theorem first_success_exists (env : Env) :
    ∀ l : List Backend, ∃ pre b rest, l ++ [Backend.none] = pre ++ b :: rest
      ∧ (∀ x ∈ pre, ¬ succeeds env x) ∧ succeeds env b := by
  intro l
  induction l with
  | nil => exact ⟨[], Backend.none, [], rfl, by simp, Or.inl rfl⟩
  | cons x l ih =>
    by_cases hx : succeeds env x
    · exact ⟨[], x, l ++ [Backend.none], rfl, by simp, hx⟩
    · obtain ⟨pre, b, rest, e, hpre, hb⟩ := ih
      refine ⟨x :: pre, b, rest, ?_, ?_, hb⟩
      · rw [List.cons_append, e, List.cons_append]
      · intro y hy
        rcases List.mem_cons.mp hy with rfl | hy
        · exact hx
        · exact hpre y hy

theorem selector_order_ends (env : Env) :
    ∃ l, selector_order env = l ++ [Backend.none] := ⟨_, rfl⟩

/-- The body of `System::make` behind its assertion is the selector over the
compiled-in order followed by the registration. -/
theorem System_make_eq (env : Env) (w : World) (h : w.g_instance = none) :
    System_make env w
      = Except.ok (register (run_selector env (selector_order env) (none, w))) := by
  obtain ⟨sk, wi, ma, li, av⟩ := env
  unfold System_make
  rw [if_neg (by simp [h])]
  cases sk <;> cases wi <;> cases ma <;> cases li <;>
    simp [selector_order, run_selector, try_factory, register]

/-- The result of `System::make` from a state without registered instance, in
terms of the first succeeding factory `b` of the order. -/
theorem System_make_first (env : Env) (w : World) (h : w.g_instance = none) :
    ∃ pre b rest, selector_order env = pre ++ b :: rest
      ∧ (∀ x ∈ pre, ¬ succeeds env x) ∧ succeeds env b
      ∧ System_make env w =
          Except.ok (some w.constructed,
            { g_instance := some w.constructed
              g_is_being_destroyed := false
              constructed := w.constructed + 1
              queue := w.queue
              log := w.log ++ (pre ++ [b]).map Call.factory }) := by
  obtain ⟨l, hl⟩ := selector_order_ends env
  obtain ⟨pre, b, rest, e, hpre, hb⟩ := first_success_exists env l
  refine ⟨pre, b, rest, hl.trans e, hpre, hb, ?_⟩
  rw [System_make_eq env w h, hl, e, run_selector_first env b rest pre w hpre hb,
    call_factory_ok env b _ hb]
  simp [register, h]

/-! ## Teardown -/

theorem System_instance_fails_iff (w : World) :
    System_instance w = Except.error Fault.assertion ↔ w.g_is_being_destroyed = true := by
  unfold System_instance
  cases hflag : w.g_is_being_destroyed
  · cases hinst : w.g_instance <;> simp
  · simp

/-- Handlers only extend the log, with the globals they were started in. -/
theorem run_handlers_spec :
    ∀ (q : List Pending) (w w1 : World), run_handlers w q = Except.ok w1 →
      w1 = { w with
        log := w.log
          ++ List.replicate q.length (Call.handler w.g_instance w.g_is_being_destroyed) } := by
  intro q
  induction q with
  | nil =>
    intro w w1 h
    simp only [run_handlers, Except.ok.injEq] at h
    subst h
    simp
  | cons p ps ih =>
    intro w w1 h
    cases p with
    | plain =>
      simp only [run_handlers] at h
      rw [ih _ _ h]
      simp [List.replicate_succ]
    | lookup =>
      simp only [run_handlers] at h
      split at h
      · cases h
      · rw [ih _ _ h]
        simp [List.replicate_succ]

/-- A drain without lookups completes. -/
theorem run_handlers_returns :
    ∀ (q : List Pending) (w : World), Pending.lookup ∉ q → ∃ w1, run_handlers w q = Except.ok w1 := by
  intro q
  induction q with
  | nil => intro w _; exact ⟨w, rfl⟩
  | cons p ps ih =>
    intro w hq
    cases p with
    | plain =>
      simp only [run_handlers]
      exact ih _ (fun hmem => hq (List.mem_cons_of_mem _ hmem))
    | lookup => exact absurd (List.mem_cons_self _ _) hq

/-- A lookup run while the flag is set fails the assertion of `instance()`,
and with it the drain. -/
theorem run_handlers_lookup :
    ∀ (q : List Pending) (w : World), w.g_is_being_destroyed = true → Pending.lookup ∈ q →
      run_handlers w q = Except.error Fault.assertion := by
  intro q
  induction q with
  | nil => intro w _ hq; cases hq
  | cons p ps ih =>
    intro w hflag hq
    cases p with
    | plain =>
      simp only [run_handlers]
      apply ih
      · exact hflag
      · rcases List.mem_cons.mp hq with h | h
        · cases h
        · exact h
    | lookup =>
      simp only [run_handlers, System_instance, hflag, if_true]

theorem destroyInstance_spec (this : Nat) (w w1 : World) (hreg : w.g_instance = some this)
    (h : destroyInstance this w = Except.ok w1) : w1 = torn_down this w := by
  unfold destroyInstance at h
  rw [if_neg (by simp [hreg])] at h
  split at h
  · cases h
  · next w2 hw2 =>
    simp only [Except.ok.injEq] at h
    unfold clearEvents at hw2
    have e := run_handlers_spec _ _ _ hw2
    rw [← h, e]
    simp [torn_down, hreg]

theorem destroyInstance_returns (this : Nat) (w : World) (hreg : w.g_instance = some this)
    (hq : Pending.lookup ∉ w.queue) : destroyInstance this w = Except.ok (torn_down this w) := by
  have hex : ∃ w2, clearEvents { w with g_is_being_destroyed := true } = Except.ok w2 := by
    unfold clearEvents
    exact run_handlers_returns _ _ hq
  obtain ⟨w2, hw2⟩ := hex
  have hd : destroyInstance this w = Except.ok { w2 with g_instance := none } := by
    unfold destroyInstance
    rw [if_neg (by simp [hreg])]
    simp only [hw2]
  rw [hd]
  congr 1
  exact destroyInstance_spec this w _ hreg hd

theorem destroyInstance_lookup (this : Nat) (w : World) (hreg : w.g_instance = some this)
    (hq : Pending.lookup ∈ w.queue) : destroyInstance this w = Except.error Fault.assertion := by
  have hce : clearEvents { w with g_is_being_destroyed := true }
      = Except.error Fault.assertion := by
    unfold clearEvents
    exact run_handlers_lookup _ _ rfl hq
  unfold destroyInstance
  rw [if_neg (by simp [hreg])]
  simp only [hce]

/-- On a torn-down state both re-entries of the teardown change nothing. -/
theorem destroyInstance_again (this : Nat) (w : World) :
    destroyInstance this (torn_down this w) = Except.ok (torn_down this w)
    ∧ CommonSystem_dtor this (torn_down this w) = Except.ok (torn_down this w) := by
  constructor
  · unfold destroyInstance
    rw [if_pos (by simp [torn_down])]
    simp [torn_down]
  · unfold CommonSystem_dtor
    rw [if_neg (by simp [torn_down])]

theorem drains_append (l1 l2 : List Call) : drains (l1 ++ l2) = drains l1 + drains l2 := by
  simp [drains]

theorem drains_handlers (n : Nat) (g : Option Nat) (f : Bool) :
    drains (List.replicate n (Call.handler g f)) = 0 := by
  simp [drains]

theorem drains_torn_down (this : Nat) (w : World) :
    drains (torn_down this w).log = drains w.log + 1 := by
  have e : (torn_down this w).log
      = w.log ++ ([Call.clearEvents (some this) true]
          ++ List.replicate w.queue.length (Call.handler (some this) true)) := rfl
  rw [e, drains_append, drains_append, drains_handlers]
  rfl

/-- The destructor chain of the registered object ends in the torn-down
state, whether or not the derived destructor calls `destroyInstance`. -/
theorem release_last_spec (d : Bool) (this : Nat) (w w2 : World)
    (hreg : w.g_instance = some this) (h : release_last d this w = Except.ok w2) :
    w2 = torn_down this w := by
  unfold release_last at h
  cases d with
  | false =>
    simp only [Bool.false_eq_true, if_false] at h
    unfold CommonSystem_dtor at h
    rw [if_pos hreg] at h
    exact destroyInstance_spec this w w2 hreg h
  | true =>
    simp only [if_true] at h
    split at h
    · cases h
    · next w1 hw1 =>
      have e := destroyInstance_spec this w w1 hreg hw1
      rw [e, (destroyInstance_again this w).2] at h
      simp only [Except.ok.injEq] at h
      exact h.symm

theorem release_last_returns (d : Bool) (this : Nat) (w : World)
    (hreg : w.g_instance = some this) (hq : Pending.lookup ∉ w.queue) :
    release_last d this w = Except.ok (torn_down this w) := by
  unfold release_last
  cases d with
  | false =>
    simp only [Bool.false_eq_true, if_false]
    unfold CommonSystem_dtor
    rw [if_pos hreg]
    exact destroyInstance_returns this w hreg hq
  | true =>
    simp only [if_true]
    rw [destroyInstance_returns this w hreg hq]
    exact (destroyInstance_again this w).2

/-! ## The registry: `make`, `instance` and teardown -/

theorem call_factory_none_iff (env : Env) (b : Backend) (w : World) :
    (call_factory env b w).1 = none ↔ ¬ succeeds env b := by
  by_cases h : succeeds env b
  · rw [call_factory_ok env b w h]
    simp [h]
  · rw [call_factory_fail env b w h]
    simp [h]

/-- C4: from a state without registered instance `make()` returns an object
that `instance()` then returns; once that object has been torn down (its
destructor chain has completed, which it does when no pending handler calls
`instance()`), the next `make()` succeeds, registers a new, distinct object,
and `instance()` returns that new object. -/
theorem make_instance_cycle (env : Env) (w0 : World) (h0 : w0.g_instance = none) :
    ∃ id1 w1, System_make env w0 = Except.ok (some id1, w1)
      ∧ w1.g_instance = some id1
      ∧ System_instance w1 = Except.ok (some id1)
      ∧ ∀ (q : List Pending) (d : Bool),
          (Pending.lookup ∉ q →
            ∃ w2, release_last d id1 { w1 with queue := q } = Except.ok w2)
          ∧ ∀ w2, release_last d id1 { w1 with queue := q } = Except.ok w2 →
              w2.g_instance = none
              ∧ ∃ id2 w3, System_make env w2 = Except.ok (some id2, w3)
                  ∧ id2 ≠ id1
                  ∧ w3.g_instance = some id2
                  ∧ System_instance w3 = Except.ok (some id2) := by
  obtain ⟨pre, b, rest, _, _, _, hmake⟩ := System_make_first env w0 h0
  refine ⟨_, _, hmake, rfl, rfl, ?_⟩
  intro q d
  constructor
  · intro hq
    exact ⟨_, release_last_returns d _ _ rfl hq⟩
  · intro w2 hw2
    have e := release_last_spec d _ _ w2 rfl hw2
    subst e
    refine ⟨rfl, ?_⟩
    obtain ⟨pre2, b2, rest2, _, _, _, hmake2⟩ := System_make_first env
      (torn_down w0.constructed
        { g_instance := some w0.constructed
          g_is_being_destroyed := false
          constructed := w0.constructed + 1
          queue := q
          log := w0.log ++ (pre ++ [b]).map Call.factory }) rfl
    refine ⟨_, _, hmake2, ?_, rfl, rfl⟩
    simp [torn_down]

/-- Witness for C4: the cycle in a headless process, from the initial state,
with one event pending when the first object is released. -/
theorem make_instance_cycle_witness :
    ∃ id1 w1 w2 id2 w3, System_make headless_env World.initial = Except.ok (some id1, w1)
      ∧ System_instance w1 = Except.ok (some id1)
      ∧ release_last true id1 { w1 with queue := [Pending.plain] } = Except.ok w2
      ∧ System_make headless_env w2 = Except.ok (some id2, w3)
      ∧ id2 ≠ id1
      ∧ System_instance w3 = Except.ok (some id2) := by
  obtain ⟨id1, w1, hmake, _, hinst, hcycle⟩ :=
    make_instance_cycle headless_env World.initial rfl
  obtain ⟨hret, hnext⟩ := hcycle [Pending.plain] true
  obtain ⟨w2, hw2⟩ := hret (by decide)
  obtain ⟨_, id2, w3, hmake2, hne, _, hinst2⟩ := hnext w2 hw2
  exact ⟨id1, w1, w2, id2, w3, hmake, hinst, hw2, hmake2, hne, hinst2⟩

/-- C5: for the registered object, a `destroyInstance` that has completed
(it does when no pending handler calls `instance()`) is followed by no-ops:
a second `destroyInstance` and the base destructor both return without
failing and leave the whole state, log of calls included, as it was; one
`destroyInstance`, and the whole destructor chain, drain the event queue
exactly once. -/
theorem destroyInstance_idempotent (this : Nat) (w : World) (hreg : w.g_instance = some this) :
    (Pending.lookup ∉ w.queue → ∃ w1, destroyInstance this w = Except.ok w1)
    ∧ (∀ w1, destroyInstance this w = Except.ok w1 →
        destroyInstance this w1 = Except.ok w1
        ∧ CommonSystem_dtor this w1 = Except.ok w1
        ∧ drains w1.log = drains w.log + 1)
    ∧ ∀ d w2, release_last d this w = Except.ok w2 → drains w2.log = drains w.log + 1 := by
  refine ⟨fun hq => ⟨_, destroyInstance_returns this w hreg hq⟩, ?_, ?_⟩
  · intro w1 h1
    have e := destroyInstance_spec this w w1 hreg h1
    subst e
    exact ⟨(destroyInstance_again this w).1, (destroyInstance_again this w).2,
      drains_torn_down this w⟩
  · intro d w2 h2
    have e := release_last_spec d this w w2 hreg h2
    subst e
    exact drains_torn_down this w

/-- Witness for C5: tearing down object 0 with two pending events. -/
theorem destroyInstance_idempotent_witness :
    ∃ w1, destroyInstance 0 busy_world = Except.ok w1
      ∧ destroyInstance 0 w1 = Except.ok w1
      ∧ CommonSystem_dtor 0 w1 = Except.ok w1
      ∧ drains w1.log = 1 := by
  obtain ⟨hret, hagain, _⟩ := destroyInstance_idempotent 0 busy_world rfl
  obtain ⟨w1, h1⟩ := hret (by decide)
  obtain ⟨ha, hb, hc⟩ := hagain w1 h1
  exact ⟨w1, h1, ha, hb, hc⟩

/-- C6: `instance()` fails its assertion exactly when the
destruction-in-progress flag is set, and then returns nothing; a handler that
calls `instance()` inside the drain of a teardown of the registered object
fails that assertion, so the teardown ends there; hence a teardown that
completed ran no handler that looked the instance up. -/
theorem instance_rejected_during_teardown :
    (∀ w, System_instance w = Except.error Fault.assertion ↔ w.g_is_being_destroyed = true)
    ∧ (∀ w, w.g_is_being_destroyed = true → ∀ r, System_instance w ≠ Except.ok r)
    ∧ (∀ this w, w.g_instance = some this → Pending.lookup ∈ w.queue →
        destroyInstance this w = Except.error Fault.assertion
        ∧ ∀ d, release_last d this w = Except.error Fault.assertion)
    ∧ (∀ this w w1, w.g_instance = some this → destroyInstance this w = Except.ok w1 →
        Pending.lookup ∉ w.queue) := by
  refine ⟨System_instance_fails_iff, ?_, ?_, ?_⟩
  · intro w hflag r hr
    rw [(System_instance_fails_iff w).mpr hflag] at hr
    cases hr
  · intro this w hreg hq
    have hd := destroyInstance_lookup this w hreg hq
    refine ⟨hd, ?_⟩
    intro d
    unfold release_last
    cases d with
    | false =>
      simp only [Bool.false_eq_true, if_false]
      unfold CommonSystem_dtor
      rw [if_pos hreg]
      exact hd
    | true =>
      simp only [if_true, hd]
  · intro this w w1 hreg h1 hq
    rw [destroyInstance_lookup this w hreg hq] at h1
    cases h1

/-- Witness for C6: the teardown of object 0 with a pending handler that
calls `instance()`. -/
theorem instance_rejected_during_teardown_witness :
    destroyInstance 0 reentrant_world = Except.error Fault.assertion
    ∧ release_last true 0 reentrant_world = Except.error Fault.assertion :=
  ⟨(instance_rejected_during_teardown.2.2.1 0 reentrant_world rfl (by decide)).1,
    (instance_rejected_during_teardown.2.2.1 0 reentrant_world rfl (by decide)).2 true⟩

/-- C7: a completed `destroyInstance` of the registered object (it completes
when no pending handler calls `instance()`) has made exactly these calls, in
this order: the drain `clearEvents`, started with the flag already set and
the pointer still at the object, then one handler for each pending entry,
each started with the flag set and the pointer still at the object; the
pointer is null only in the state it returns. -/
theorem destroyInstance_order (this : Nat) (w : World) (hreg : w.g_instance = some this) :
    (Pending.lookup ∉ w.queue → ∃ w1, destroyInstance this w = Except.ok w1)
    ∧ ∀ w1, destroyInstance this w = Except.ok w1 →
        w1.log = w.log ++ Call.clearEvents (some this) true
          :: List.replicate w.queue.length (Call.handler (some this) true)
        ∧ w1.g_instance = none
        ∧ w1.g_is_being_destroyed = true
        ∧ w1.queue = [] := by
  refine ⟨fun hq => ⟨_, destroyInstance_returns this w hreg hq⟩, ?_⟩
  intro w1 h1
  have e := destroyInstance_spec this w w1 hreg h1
  subst e
  exact ⟨rfl, rfl, rfl, rfl⟩

/-- Witness for C7: tearing down object 0 with two pending events. -/
theorem destroyInstance_order_witness :
    ∃ w1, destroyInstance 0 busy_world = Except.ok w1
      ∧ w1.log = [Call.factory Backend.none, Call.clearEvents (some 0) true,
          Call.handler (some 0) true, Call.handler (some 0) true]
      ∧ w1.g_instance = none := by
  obtain ⟨hret, hlog⟩ := destroyInstance_order 0 busy_world rfl
  obtain ⟨w1, h1⟩ := hret (by decide)
  obtain ⟨ha, hb, _, _⟩ := hlog w1 h1
  exact ⟨w1, h1, ha, hb⟩

/-- C8: `make()` fails its assertion exactly when the registry pointer is
non-null; when the pointer is null it calls at least one backend factory and
returns a non-null reference. -/
theorem make_precondition (env : Env) (w : World) :
    (System_make env w = Except.error Fault.assertion ↔ w.g_instance ≠ none)
    ∧ (w.g_instance = none →
        ∃ id w1 calls, System_make env w = Except.ok (some id, w1)
          ∧ calls ≠ [] ∧ w1.log = w.log ++ calls.map Call.factory) := by
  have hnull : w.g_instance = none →
      ∃ id w1 calls, System_make env w = Except.ok (some id, w1)
        ∧ calls ≠ [] ∧ w1.log = w.log ++ calls.map Call.factory := by
    intro h
    obtain ⟨pre, b, rest, _, _, _, hmake⟩ := System_make_first env w h
    exact ⟨_, _, pre ++ [b], hmake, by simp, rfl⟩
  refine ⟨⟨?_, ?_⟩, hnull⟩
  · intro herr hnone
    obtain ⟨id, w1, _, hmake, _, _⟩ := hnull hnone
    rw [hmake] at herr
    cases herr
  · intro hne
    unfold System_make
    rw [if_pos hne]

/-- Witness for C8: a second `make()` while object 0 is registered fails, and
`make()` in a fresh headless process returns object 0. -/
theorem make_precondition_witness :
    System_make headless_env alive_world = Except.error Fault.assertion
    ∧ ∃ id w1 calls, System_make headless_env World.initial = Except.ok (some id, w1)
        ∧ calls ≠ [] ∧ w1.log = World.initial.log ++ calls.map Call.factory :=
  ⟨(make_precondition headless_env alive_world).1.mpr (by decide),
    (make_precondition headless_env World.initial).2 rfl⟩

/-- C9: called without registered instance, `make()` splits the compiled-in
order (accelerated, platform-native, null) at its first factory `b` that
returns a non-empty result: every factory before `b` returns empty, `make()`
returns what `b` returns, which is never empty, and the factory calls made
are those before `b` and `b` itself, in order, and none after it. -/
theorem make_selects_first_available (env : Env) (w : World) (h : w.g_instance = none) :
    ∃ pre b rest, selector_order env = pre ++ b :: rest
      ∧ (∀ x ∈ pre, ∀ w0, (call_factory env x w0).1 = none)
      ∧ ∃ id w1, System_make env w = Except.ok (some id, w1)
          ∧ (call_factory env b { w with log := w.log ++ pre.map Call.factory }).1 = some id
          ∧ w1.log = w.log ++ (pre ++ [b]).map Call.factory := by
  obtain ⟨pre, b, rest, horder, hpre, hb, hmake⟩ := System_make_first env w h
  refine ⟨pre, b, rest, horder, ?_, _, _, hmake, ?_, rfl⟩
  · intro x hx w0
    exact (call_factory_none_iff env x w0).mpr (hpre x hx)
  · rw [call_factory_ok env b _ hb]

/-- Witness for C9: on Linux with the accelerated backend unavailable and X11
available, `make()` calls `makeSkia`, then `makeX11`, and not `makeNone`. -/
theorem make_selects_first_available_witness :
    ∃ pre b rest, selector_order linux_env = pre ++ b :: rest
      ∧ (∀ x ∈ pre, ∀ w0, (call_factory linux_env x w0).1 = none)
      ∧ ∃ id w1, System_make linux_env World.initial = Except.ok (some id, w1)
          ∧ (call_factory linux_env b
              { World.initial with log := World.initial.log ++ pre.map Call.factory }).1 = some id
          ∧ w1.log = World.initial.log ++ (pre ++ [b]).map Call.factory :=
  make_selects_first_available linux_env World.initial rfl

/-- C10 as stated fails: after object 0 has been made and torn down in a
headless process the registry pointer is null, yet `instance()` fails its
assertion, because the flag set by the teardown is still set. -/
theorem instance_after_teardown_fails :
    System_make headless_env World.initial = Except.ok (some 0, alive_world)
    ∧ release_last true 0 alive_world = Except.ok gone_world
    ∧ gone_world.g_instance = none
    ∧ System_instance gone_world = Except.error Fault.assertion :=
  ⟨rfl, rfl, rfl, rfl⟩

/-- C10 (amended): whenever no instance is registered and the
destruction-in-progress flag is clear, as in a process before any `make()`,
`instance()` returns the null reference; a completed teardown leaves the
pointer null and the flag set, so `instance()` then fails its assertion,
until the construction of the next instance by `make()` clears the flag. -/
theorem instance_when_absent :
    System_instance World.initial = Except.ok none
    ∧ (∀ w, w.g_instance = none → w.g_is_being_destroyed = false →
        System_instance w = Except.ok none)
    ∧ (∀ this w w1, w.g_instance = some this → destroyInstance this w = Except.ok w1 →
        w1.g_instance = none ∧ w1.g_is_being_destroyed = true
        ∧ System_instance w1 = Except.error Fault.assertion)
    ∧ (∀ env w, w.g_instance = none →
        ∃ id w1, System_make env w = Except.ok (some id, w1)
          ∧ w1.g_is_being_destroyed = false) := by
  refine ⟨rfl, ?_, ?_, ?_⟩
  · intro w hinst hflag
    unfold System_instance
    rw [hflag, hinst]
    rfl
  · intro this w w1 hreg h1
    have e := destroyInstance_spec this w w1 hreg h1
    subst e
    exact ⟨rfl, rfl, rfl⟩
  · intro env w h
    obtain ⟨pre, b, rest, _, _, _, hmake⟩ := System_make_first env w h
    exact ⟨_, _, hmake, rfl⟩

/-- Witness for C10: the lookup in the initial state, and the lookup after
the teardown of object 0. -/
theorem instance_when_absent_witness :
    System_instance World.initial = Except.ok none
    ∧ gone_world.g_instance = none ∧ gone_world.g_is_being_destroyed = true
    ∧ System_instance gone_world = Except.error Fault.assertion :=
  ⟨instance_when_absent.2.1 World.initial rfl rfl,
    instance_when_absent.2.2.1 0 alive_world gone_world rfl rfl⟩

/-! ## Channel extraction: the 24-bit, 16-bit and opaque 32-bit paths -/

theorem load_u8_lt (data : Nat → Nat) (addr : Nat) : load_u8 data addr < 256 :=
  Nat.mod_lt _ (by decide)

theorem load_u16_lt (data : Nat → Nat) (addr : Nat) : load_u16 data addr < 2 ^ 16 := by
  have h0 := load_u8_lt data addr
  have h1 := load_u8_lt data (addr + 1)
  unfold load_u16
  omega

theorem load_u32_lt (data : Nat → Nat) (addr : Nat) : load_u32 data addr < 2 ^ 32 := by
  have h0 := load_u8_lt data addr
  have h1 := load_u8_lt data (addr + 1)
  have h2 := load_u8_lt data (addr + 2)
  have h3 := load_u8_lt data (addr + 3)
  unfold load_u32
  omega

theorem shiftRight_le_self (x n : Nat) : x >>> n ≤ x := by
  rw [Nat.shiftRight_eq_div_pow]
  exact Nat.div_le_self _ _

/-- A raw channel is at most the loaded scalar. -/
theorem channel_le (c mask shift : Nat) : channel c mask shift ≤ c :=
  Nat.le_trans (shiftRight_le_self _ _) Nat.and_le_left

/-- A raw channel is at most the maximum `mask >> shift` of its channel. -/
theorem channel_le_max (c mask shift : Nat) : channel c mask shift ≤ mask >>> shift := by
  unfold channel
  rw [Nat.shiftRight_eq_div_pow, Nat.shiftRight_eq_div_pow]
  exact Nat.div_le_div_right Nat.and_le_right

/-- The `int` made from a 32-bit value has that value as its bit pattern. -/
theorem to_u32_to_int (x : Nat) (h : x < 2 ^ 32) : to_u32 (to_int x) = x := by
  have h1 : x % 2 ^ 32 = x := Nat.mod_eq_of_lt h
  unfold to_u32 to_int
  rw [h1]
  split
  · have h2 : ((x : Int) % 2 ^ 32) = (x : Int) := by
      apply Int.emod_eq_of_lt
      · exact Int.natCast_nonneg x
      · exact_mod_cast h
    rw [h2, Int.toNat_natCast]
  · have h2 : (((x : Int) - 2 ^ 32) % 2 ^ 32) = (x : Int) := by
      rw [Int.sub_emod, Int.emod_self, Int.sub_zero, Int.emod_emod_of_dvd _ (dvd_refl _)]
      apply Int.emod_eq_of_lt
      · exact Int.natCast_nonneg x
      · exact_mod_cast h
    rw [h2, Int.toNat_natCast]

/-- C11 (amended): for every 24-bit pixel and every descriptor `get_rgba24`
yields alpha 255 and, without premultiplication or rescaling, colour
channels that hold the raw values `(c & mask) >> shift` converted to `int`:
the 32-bit pattern of each channel is the raw value, and the channel equals
the raw value whenever that is below 2^31. -/
theorem get_rgba24_direct (spec : image_spec) (data : Nat → Nat) (addr : Nat) :
    (get_rgba24 spec data addr).a = 255
    ∧ to_u32 (get_rgba24 spec data addr).r
        = channel (load_u32 data addr) spec.red_mask spec.red_shift
    ∧ to_u32 (get_rgba24 spec data addr).g
        = channel (load_u32 data addr) spec.green_mask spec.green_shift
    ∧ to_u32 (get_rgba24 spec data addr).b
        = channel (load_u32 data addr) spec.blue_mask spec.blue_shift
    ∧ (channel (load_u32 data addr) spec.red_mask spec.red_shift < 2 ^ 31 →
        (get_rgba24 spec data addr).r
          = ((channel (load_u32 data addr) spec.red_mask spec.red_shift : Nat) : Int))
    ∧ (channel (load_u32 data addr) spec.green_mask spec.green_shift < 2 ^ 31 →
        (get_rgba24 spec data addr).g
          = ((channel (load_u32 data addr) spec.green_mask spec.green_shift : Nat) : Int))
    ∧ (channel (load_u32 data addr) spec.blue_mask spec.blue_shift < 2 ^ 31 →
        (get_rgba24 spec data addr).b
          = ((channel (load_u32 data addr) spec.blue_mask spec.blue_shift : Nat) : Int)) := by
  have hc := load_u32_lt data addr
  have hlt : ∀ mask shift, channel (load_u32 data addr) mask shift < 2 ^ 32 :=
    fun mask shift => Nat.lt_of_le_of_lt (channel_le _ mask shift) hc
  refine ⟨rfl, ?_, ?_, ?_, ?_, ?_, ?_⟩
  · exact to_u32_to_int _ (hlt _ _)
  · exact to_u32_to_int _ (hlt _ _)
  · exact to_u32_to_int _ (hlt _ _)
  · exact fun h => to_int_of_lt _ h
  · exact fun h => to_int_of_lt _ h
  · exact fun h => to_int_of_lt _ h

/-- Witness for C11: the pixel `0x80C86432` read through 8-bit masks as a
24-bit pixel. -/
theorem get_rgba24_direct_witness :
    (get_rgba24 argb_spec argb_data 0).a = 255
    ∧ (get_rgba24 argb_spec argb_data 0).r = 200
    ∧ (get_rgba24 argb_spec argb_data 0).g = 100
    ∧ (get_rgba24 argb_spec argb_data 0).b = 50 :=
  ⟨(get_rgba24_direct argb_spec argb_data 0).1,
    (get_rgba24_direct argb_spec argb_data 0).2.2.2.2.1 (by decide),
    (get_rgba24_direct argb_spec argb_data 0).2.2.2.2.2.1 (by decide),
    (get_rgba24_direct argb_spec argb_data 0).2.2.2.2.2.2 (by decide)⟩

/-- C11 as stated fails: with a red mask on the top byte of the load the raw
red value of the bytes `00 00 00 80` is 2147483648, which the `int` output
cannot hold; `get_rgba24` yields -2147483648. -/
theorem get_rgba24_wraps :
    channel (load_u32 high_red24_data 0) high_red24_spec.red_mask high_red24_spec.red_shift
      = 2147483648
    ∧ (get_rgba24 high_red24_spec high_red24_data 0).r = -2147483648
    ∧ (get_rgba24 high_red24_spec high_red24_data 0).r
        ≠ ((channel (load_u32 high_red24_data 0) high_red24_spec.red_mask
              high_red24_spec.red_shift : Nat) : Int) := by
  decide

/-- One channel of `get_rgba16` with a non-zero maximum. -/
theorem rescale16_ok (c mask shift : Nat) (hc : c < 2 ^ 16) (hm : mask >>> shift ≠ 0) :
    rescale16 c mask shift
      = Except.ok ((channel c mask shift * 255 / (mask >>> shift) : Nat) : Int) := by
  have hx : channel c mask shift < 2 ^ 16 := Nat.lt_of_le_of_lt (channel_le c mask shift) hc
  have hmul : ulong_mul (channel c mask shift) 255 = channel c mask shift * 255 := by
    unfold ulong_mul
    apply Nat.mod_eq_of_lt
    omega
  have hdiv : channel c mask shift * 255 / (mask >>> shift) ≤ channel c mask shift * 255 :=
    Nat.div_le_self _ _
  unfold rescale16
  rw [if_neg hm, hmul, to_int_of_lt _ (by omega)]

/-- The rescaled value of a channel is at most 255. -/
theorem rescaled_le (c mask shift : Nat) (hm : mask >>> shift ≠ 0) :
    channel c mask shift * 255 / (mask >>> shift) ≤ 255 := by
  have hle := channel_le_max c mask shift
  have hpos : 0 < mask >>> shift := Nat.pos_of_ne_zero hm
  rw [Nat.div_le_iff_le_mul_add_pred hpos]
  have : channel c mask shift * 255 ≤ (mask >>> shift) * 255 := Nat.mul_le_mul_right _ hle
  omega

/-- The result of `get_rgba16` when no channel maximum is zero. -/
theorem get_rgba16_eq (spec : image_spec) (data : Nat → Nat) (addr : Nat)
    (h : channels16_nonzero spec) :
    get_rgba16 spec data addr =
      Except.ok
        { r := ((channel (load_u16 data addr) spec.red_mask spec.red_shift * 255
                  / (spec.red_mask >>> spec.red_shift) : Nat) : Int)
          g := ((channel (load_u16 data addr) spec.green_mask spec.green_shift * 255
                  / (spec.green_mask >>> spec.green_shift) : Nat) : Int)
          b := ((channel (load_u16 data addr) spec.blue_mask spec.blue_shift * 255
                  / (spec.blue_mask >>> spec.blue_shift) : Nat) : Int)
          a := 255 } := by
  obtain ⟨hr, hg, hb⟩ := h
  have hc := load_u16_lt data addr
  unfold get_rgba16
  simp only [rescale16_ok _ _ _ hc hr, rescale16_ok _ _ _ hc hg, rescale16_ok _ _ _ hc hb]

/-- C12 (amended): for every 16-bit pixel of a descriptor whose red, green
and blue channels all have a non-zero maximum m = mask >> shift, `get_rgba16`
returns, converts each raw channel value x to floor(x*255/m), so that x = m
gives 255 and x = 0 gives 0, and yields alpha 255. -/
theorem get_rgba16_rescales (spec : image_spec) (data : Nat → Nat) (addr : Nat)
    (h : channels16_nonzero spec) :
    ∃ px, get_rgba16 spec data addr = Except.ok px
      ∧ px.r = ((channel (load_u16 data addr) spec.red_mask spec.red_shift * 255
                  / (spec.red_mask >>> spec.red_shift) : Nat) : Int)
      ∧ px.g = ((channel (load_u16 data addr) spec.green_mask spec.green_shift * 255
                  / (spec.green_mask >>> spec.green_shift) : Nat) : Int)
      ∧ px.b = ((channel (load_u16 data addr) spec.blue_mask spec.blue_shift * 255
                  / (spec.blue_mask >>> spec.blue_shift) : Nat) : Int)
      ∧ px.a = 255
      ∧ (channel (load_u16 data addr) spec.red_mask spec.red_shift
            = spec.red_mask >>> spec.red_shift → px.r = 255)
      ∧ (channel (load_u16 data addr) spec.red_mask spec.red_shift = 0 → px.r = 0)
      ∧ (channel (load_u16 data addr) spec.green_mask spec.green_shift
            = spec.green_mask >>> spec.green_shift → px.g = 255)
      ∧ (channel (load_u16 data addr) spec.green_mask spec.green_shift = 0 → px.g = 0)
      ∧ (channel (load_u16 data addr) spec.blue_mask spec.blue_shift
            = spec.blue_mask >>> spec.blue_shift → px.b = 255)
      ∧ (channel (load_u16 data addr) spec.blue_mask spec.blue_shift = 0 → px.b = 0) := by
  have hfull : ∀ x m : Nat, m ≠ 0 → x = m → ((x * 255 / m : Nat) : Int) = 255 := by
    intro x m hm hx
    rw [hx, Nat.mul_div_cancel_left 255 (Nat.pos_of_ne_zero hm)]
    rfl
  have hzero : ∀ x m : Nat, x = 0 → ((x * 255 / m : Nat) : Int) = 0 := by
    intro x m hx
    rw [hx, Nat.zero_mul, Nat.zero_div]
    rfl
  obtain ⟨hr, hg, hb⟩ := h
  exact ⟨_, get_rgba16_eq spec data addr ⟨hr, hg, hb⟩, rfl, rfl, rfl, rfl,
    hfull _ _ hr, hzero _ _, hfull _ _ hg, hzero _ _, hfull _ _ hb, hzero _ _⟩

/-- Witness for C12: in the 5-6-5 layout the pixel with raw red 31 and no
green or blue becomes (255, 0, 0, 255). -/
theorem get_rgba16_rescales_witness :
    ∃ px, get_rgba16 rgb565_spec red565_data 0 = Except.ok px
      ∧ px.r = 255 ∧ px.g = 0 ∧ px.b = 0 ∧ px.a = 255 := by
  obtain ⟨px, hpx, _, _, _, ha, hr255, _, _, hg0, _, hb0⟩ :=
    get_rgba16_rescales rgb565_spec red565_data 0 (by decide)
  exact ⟨px, hpx, hr255 (by decide), hg0 (by decide), hb0 (by decide), ha⟩

/-- C12 as stated fails: in the 16-bit image without a red channel the green
mask is non-zero with maximum 63, yet `get_rgba16` divides by the red
maximum 0 first and returns neither a green value nor an alpha. -/
theorem get_rgba16_no_red_faults :
    no_red16_image.spec.green_mask ≠ 0
    ∧ no_red16_image.spec.green_mask >>> no_red16_image.spec.green_shift = 63
    ∧ get_rgba16 no_red16_image.spec no_red16_image.data 0
        = Except.error Fault.division_by_zero
    ∧ ¬ ∃ px, get_rgba16 no_red16_image.spec no_red16_image.data 0 = Except.ok px := by
  have h : get_rgba16 no_red16_image.spec no_red16_image.data 0
      = Except.error Fault.division_by_zero := rfl
  refine ⟨by decide, by decide, h, ?_⟩
  rintro ⟨px, hpx⟩
  rw [h] at hpx
  cases hpx

/-- The alpha of `get_rgba32` for a descriptor without alpha mask. -/
theorem get_alpha32_unmasked (spec : image_spec) (c : Nat) (hmask : spec.alpha_mask = 0) :
    get_alpha32 spec c = ((255 : Nat) : Int) := by
  unfold get_alpha32
  rw [if_neg (by simp [hmask])]
  rfl

/-- The alpha of `get_rgba32` for a descriptor with an alpha mask. -/
theorem get_alpha32_masked (spec : image_spec) (c : Nat) (hmask : spec.alpha_mask ≠ 0)
    (ha : channel c spec.alpha_mask spec.alpha_shift ≤ 255) :
    get_alpha32 spec c = ((channel c spec.alpha_mask spec.alpha_shift : Nat) : Int) := by
  unfold get_alpha32
  rw [if_pos hmask]
  exact to_int_of_lt _ (by omega)

/-- The result of `get_rgba32` once its alpha is known to be `A ≤ 255`. -/
theorem get_rgba32_of_alpha (spec : image_spec) (data : Nat → Nat) (addr A : Nat)
    (hA : get_alpha32 spec (load_u32 data addr) = (A : Int)) (hA255 : A ≤ 255) :
    (get_rgba32 spec data addr).a = (A : Int)
    ∧ (channel (load_u32 data addr) spec.red_mask spec.red_shift ≤ 255 →
        (get_rgba32 spec data addr).r
          = ((channel (load_u32 data addr) spec.red_mask spec.red_shift * A / 255 : Nat) : Int))
    ∧ (channel (load_u32 data addr) spec.green_mask spec.green_shift ≤ 255 →
        (get_rgba32 spec data addr).g
          = ((channel (load_u32 data addr) spec.green_mask spec.green_shift * A / 255 : Nat)
              : Int))
    ∧ (channel (load_u32 data addr) spec.blue_mask spec.blue_shift ≤ 255 →
        (get_rgba32 spec data addr).b
          = ((channel (load_u32 data addr) spec.blue_mask spec.blue_shift * A / 255 : Nat)
              : Int)) := by
  refine ⟨hA, ?_, ?_, ?_⟩
  · intro h
    show to_int (ulong_mul _ (to_ulong (get_alpha32 spec (load_u32 data addr))) / 255) = _
    rw [hA, premultiply_of_le _ _ h hA255]
  · intro h
    show to_int (ulong_mul _ (to_ulong (get_alpha32 spec (load_u32 data addr))) / 255) = _
    rw [hA, premultiply_of_le _ _ h hA255]
  · intro h
    show to_int (ulong_mul _ (to_ulong (get_alpha32 spec (load_u32 data addr))) / 255) = _
    rw [hA, premultiply_of_le _ _ h hA255]

/-- C13: for a 32-bit pixel whose descriptor has no alpha mask `get_rgba32`
yields alpha 255, and each colour channel whose raw value is at most 255 is
exactly that raw value. -/
theorem get_rgba32_unmasked (spec : image_spec) (data : Nat → Nat) (addr : Nat)
    (hmask : spec.alpha_mask = 0) :
    (get_rgba32 spec data addr).a = 255
    ∧ (channel (load_u32 data addr) spec.red_mask spec.red_shift ≤ 255 →
        (get_rgba32 spec data addr).r
          = ((channel (load_u32 data addr) spec.red_mask spec.red_shift : Nat) : Int))
    ∧ (channel (load_u32 data addr) spec.green_mask spec.green_shift ≤ 255 →
        (get_rgba32 spec data addr).g
          = ((channel (load_u32 data addr) spec.green_mask spec.green_shift : Nat) : Int))
    ∧ (channel (load_u32 data addr) spec.blue_mask spec.blue_shift ≤ 255 →
        (get_rgba32 spec data addr).b
          = ((channel (load_u32 data addr) spec.blue_mask spec.blue_shift : Nat) : Int)) := by
  obtain ⟨ha, hr, hg, hb⟩ := get_rgba32_of_alpha spec data addr 255
    (get_alpha32_unmasked spec _ hmask) (Nat.le_refl _)
  refine ⟨ha, ?_, ?_, ?_⟩
  · intro h
    rw [hr h, Nat.mul_div_cancel _ (by decide)]
  · intro h
    rw [hg h, Nat.mul_div_cancel _ (by decide)]
  · intro h
    rw [hb h, Nat.mul_div_cancel _ (by decide)]

/-- Witness for C13: the bytes of the pixel `0x80C86432` read without alpha
mask give (200, 100, 50) with alpha 255. -/
theorem get_rgba32_unmasked_witness :
    get_rgba32 xrgb_spec argb_data 0 = { r := 200, g := 100, b := 50, a := 255 } := by
  obtain ⟨ha, hr, hg, hb⟩ := get_rgba32_unmasked xrgb_spec argb_data 0 rfl
  have e : get_rgba32 xrgb_spec argb_data 0
      = { r := (get_rgba32 xrgb_spec argb_data 0).r, g := (get_rgba32 xrgb_spec argb_data 0).g
          b := (get_rgba32 xrgb_spec argb_data 0).b, a := (get_rgba32 xrgb_spec argb_data 0).a } :=
    rfl
  rw [e, ha, hr (by decide), hg (by decide), hb (by decide)]
  decide

/-- A premultiplied value is at most the alpha it was multiplied by. -/
theorem premultiplied_le (x A : Nat) (hx : x ≤ 255) : x * A / 255 ≤ A := by
  have h1 : x * A ≤ 255 * A := Nat.mul_le_mul_right A hx
  have h2 : x * A / 255 ≤ 255 * A / 255 := Nat.div_le_div_right h1
  rwa [Nat.mul_div_cancel_left A (by decide)] at h2

/-- C17: for a 32-bit pixel whose raw channels r, g, b, a are at most 255,
every channel produced by `get_rgba32` lies in 0..255 and every colour
channel is at most the produced alpha. -/
theorem get_rgba32_premultiplied (spec : image_spec) (data : Nat → Nat) (addr : Nat)
    (hr : channel (load_u32 data addr) spec.red_mask spec.red_shift ≤ 255)
    (hg : channel (load_u32 data addr) spec.green_mask spec.green_shift ≤ 255)
    (hb : channel (load_u32 data addr) spec.blue_mask spec.blue_shift ≤ 255)
    (ha : channel (load_u32 data addr) spec.alpha_mask spec.alpha_shift ≤ 255) :
    (0 ≤ (get_rgba32 spec data addr).a ∧ (get_rgba32 spec data addr).a ≤ 255)
    ∧ (0 ≤ (get_rgba32 spec data addr).r
        ∧ (get_rgba32 spec data addr).r ≤ (get_rgba32 spec data addr).a)
    ∧ (0 ≤ (get_rgba32 spec data addr).g
        ∧ (get_rgba32 spec data addr).g ≤ (get_rgba32 spec data addr).a)
    ∧ (0 ≤ (get_rgba32 spec data addr).b
        ∧ (get_rgba32 spec data addr).b ≤ (get_rgba32 spec data addr).a) := by
  have hex : ∃ A : Nat, A ≤ 255 ∧ get_alpha32 spec (load_u32 data addr) = (A : Int) := by
    by_cases hmask : spec.alpha_mask = 0
    · exact ⟨255, Nat.le_refl _, get_alpha32_unmasked spec _ hmask⟩
    · exact ⟨_, ha, get_alpha32_masked spec _ hmask ha⟩
  obtain ⟨A, hA255, hA⟩ := hex
  obtain ⟨ea, er, eg, eb⟩ := get_rgba32_of_alpha spec data addr A hA hA255
  rw [ea, er hr, eg hg, eb hb]
  have h1 := premultiplied_le (channel (load_u32 data addr) spec.red_mask spec.red_shift) A hr
  have h2 := premultiplied_le (channel (load_u32 data addr) spec.green_mask spec.green_shift) A hg
  have h3 := premultiplied_le (channel (load_u32 data addr) spec.blue_mask spec.blue_shift) A hb
  refine ⟨⟨?_, ?_⟩, ⟨?_, ?_⟩, ⟨?_, ?_⟩, ⟨?_, ?_⟩⟩ <;> omega

/-- Witness for C17: the pixel `0x80C86432`, raw (200, 100, 50, 128), gives
channels with 0 ≤ 100, 50, 25 ≤ 128 ≤ 255. -/
theorem get_rgba32_premultiplied_witness :
    (get_rgba32 argb_spec argb_data 0).r ≤ (get_rgba32 argb_spec argb_data 0).a
    ∧ (get_rgba32 argb_spec argb_data 0).g ≤ (get_rgba32 argb_spec argb_data 0).a
    ∧ (get_rgba32 argb_spec argb_data 0).b ≤ (get_rgba32 argb_spec argb_data 0).a
    ∧ (get_rgba32 argb_spec argb_data 0).a ≤ 255 :=
  ⟨(get_rgba32_premultiplied argb_spec argb_data 0 (by decide) (by decide) (by decide)
      (by decide)).2.1.2,
    (get_rgba32_premultiplied argb_spec argb_data 0 (by decide) (by decide) (by decide)
      (by decide)).2.2.1.2,
    (get_rgba32_premultiplied argb_spec argb_data 0 (by decide) (by decide) (by decide)
      (by decide)).2.2.2.2,
    (get_rgba32_premultiplied argb_spec argb_data 0 (by decide) (by decide) (by decide)
      (by decide)).1.2⟩

/-- The rescaling of one channel is monotone in the raw value. -/
theorem rescaled_mono (x y m : Nat) (h : x ≤ y) : x * 255 / m ≤ y * 255 / m :=
  Nat.div_le_div_right (Nat.mul_le_mul_right 255 h)

/-- C18: when the red, green and blue channels of a 16-bit descriptor all
have `mask >> shift` non-zero, `get_rgba16` divides by no zero (it returns
for every pixel), every colour channel it produces lies in 0..255, and of
two pixels the one with the larger raw value in a channel never gets the
smaller converted value in it. -/
theorem get_rgba16_safe (spec : image_spec) (h : channels16_nonzero spec)
    (data1 : Nat → Nat) (addr1 : Nat) (data2 : Nat → Nat) (addr2 : Nat) :
    ∃ px1 px2, get_rgba16 spec data1 addr1 = Except.ok px1
      ∧ get_rgba16 spec data2 addr2 = Except.ok px2
      ∧ (0 ≤ px1.r ∧ px1.r ≤ 255) ∧ (0 ≤ px1.g ∧ px1.g ≤ 255) ∧ (0 ≤ px1.b ∧ px1.b ≤ 255)
      ∧ (channel (load_u16 data1 addr1) spec.red_mask spec.red_shift
            ≤ channel (load_u16 data2 addr2) spec.red_mask spec.red_shift → px1.r ≤ px2.r)
      ∧ (channel (load_u16 data1 addr1) spec.green_mask spec.green_shift
            ≤ channel (load_u16 data2 addr2) spec.green_mask spec.green_shift → px1.g ≤ px2.g)
      ∧ (channel (load_u16 data1 addr1) spec.blue_mask spec.blue_shift
            ≤ channel (load_u16 data2 addr2) spec.blue_mask spec.blue_shift → px1.b ≤ px2.b) := by
  refine ⟨_, _, get_rgba16_eq spec data1 addr1 h, get_rgba16_eq spec data2 addr2 h, ?_⟩
  obtain ⟨hr, hg, hb⟩ := h
  have b1 := rescaled_le (load_u16 data1 addr1) spec.red_mask spec.red_shift hr
  have b2 := rescaled_le (load_u16 data1 addr1) spec.green_mask spec.green_shift hg
  have b3 := rescaled_le (load_u16 data1 addr1) spec.blue_mask spec.blue_shift hb
  refine ⟨⟨Int.natCast_nonneg _, Int.ofNat_le.mpr b1⟩, ⟨Int.natCast_nonneg _, Int.ofNat_le.mpr b2⟩,
    ⟨Int.natCast_nonneg _, Int.ofNat_le.mpr b3⟩, ?_, ?_, ?_⟩
  · intro hle
    exact Int.ofNat_le.mpr (rescaled_mono _ _ _ hle)
  · intro hle
    exact Int.ofNat_le.mpr (rescaled_mono _ _ _ hle)
  · intro hle
    exact Int.ofNat_le.mpr (rescaled_mono _ _ _ hle)

/-- Witness for C18: in the 5-6-5 layout the pixels `0xF800` and `0x07FF`
both convert, and the second, with the larger raw green, has the larger
green. -/
theorem get_rgba16_safe_witness :
    ∃ px1 px2, get_rgba16 rgb565_spec red565_data 0 = Except.ok px1
      ∧ get_rgba16 rgb565_spec cyan565_data 0 = Except.ok px2
      ∧ px1.r ≤ 255 ∧ px1.g ≤ px2.g := by
  obtain ⟨px1, px2, h1, h2, hr, _, _, _, hg, _⟩ :=
    get_rgba16_safe rgb565_spec (by decide) red565_data 0 cyan565_data 0
  exact ⟨px1, px2, h1, h2, hr.2, hg (by decide)⟩

/-! ## `CommonSystem::keyModifiers` -/

/-- A bit of an optional contribution to the mask. -/
theorem testBit_ite_zero (b : Bool) (x i : Nat) :
    (if b = true then x else 0).testBit i = (b && x.testBit i) := by
  cases b <;> simp

/-- Each bit of the result of `keyModifiers` for single-bit constants. -/
theorem keyModifiers_testBit (s c a m p w : Nat) (pressed : KeyScancode → Bool) (i : Nat) :
    (keyModifiers (single_bit_modifiers s c a m p w) pressed).testBit i
      = (((pressed KeyScancode.kKeyLShift || pressed KeyScancode.kKeyRShift) && decide (s = i))
        || ((pressed KeyScancode.kKeyLControl || pressed KeyScancode.kKeyRControl
              || pressed KeyScancode.kKeyAltGr) && decide (c = i))
        || ((pressed KeyScancode.kKeyAlt || pressed KeyScancode.kKeyAltGr) && decide (a = i))
        || (pressed KeyScancode.kKeyCommand && decide (m = i))
        || (pressed KeyScancode.kKeySpace && decide (p = i))
        || ((pressed KeyScancode.kKeyLWin || pressed KeyScancode.kKeyRWin) && decide (w = i))) := by
  simp only [keyModifiers, single_bit_modifiers, Nat.testBit_or, testBit_ite_zero,
    Nat.testBit_two_pow]
  cases pressed KeyScancode.kKeyAltGr <;> cases decide (c = i) <;> cases decide (a = i) <;>
    simp

/-- C14: with modifier constants that are distinct single bits,
`keyModifiers` is a function of the polled keys alone whose Shift bit is set
iff left or right Shift is pressed, Ctrl bit iff left Control, right Control
or AltGr, Alt bit iff Alt or AltGr, Cmd bit iff Command, Space bit iff
Space, Win bit iff left or right Win; no other bit is set, and the result
is 0 when no key is pressed. -/
theorem keyModifiers_bits (s c a m p w : Nat) (hd : [s, c, a, m, p, w].Nodup)
    (pressed : KeyScancode → Bool) :
    (keyModifiers (single_bit_modifiers s c a m p w) pressed).testBit s
        = (pressed KeyScancode.kKeyLShift || pressed KeyScancode.kKeyRShift)
    ∧ (keyModifiers (single_bit_modifiers s c a m p w) pressed).testBit c
        = (pressed KeyScancode.kKeyLControl || pressed KeyScancode.kKeyRControl
            || pressed KeyScancode.kKeyAltGr)
    ∧ (keyModifiers (single_bit_modifiers s c a m p w) pressed).testBit a
        = (pressed KeyScancode.kKeyAlt || pressed KeyScancode.kKeyAltGr)
    ∧ (keyModifiers (single_bit_modifiers s c a m p w) pressed).testBit m
        = pressed KeyScancode.kKeyCommand
    ∧ (keyModifiers (single_bit_modifiers s c a m p w) pressed).testBit p
        = pressed KeyScancode.kKeySpace
    ∧ (keyModifiers (single_bit_modifiers s c a m p w) pressed).testBit w
        = (pressed KeyScancode.kKeyLWin || pressed KeyScancode.kKeyRWin)
    ∧ (∀ i, i ∉ [s, c, a, m, p, w] →
        (keyModifiers (single_bit_modifiers s c a m p w) pressed).testBit i = false)
    ∧ ((∀ k, pressed k = false) → keyModifiers (single_bit_modifiers s c a m p w) pressed = 0) := by
  simp only [List.nodup_cons, List.mem_cons, List.mem_singleton, not_or, List.not_mem_nil,
    not_false_eq_true, List.nodup_nil, and_true] at hd
  obtain ⟨⟨h1, h2, h3, h4, h5⟩, ⟨h6, h7, h8, h9⟩, ⟨h10, h11, h12⟩, ⟨h13, h14⟩, h15⟩ := hd
  refine ⟨?_, ?_, ?_, ?_, ?_, ?_, ?_, ?_⟩
  · rw [keyModifiers_testBit]
    simp [h1, h2, h3, h4, h5, Ne.symm h1, Ne.symm h2, Ne.symm h3, Ne.symm h4, Ne.symm h5]
  · rw [keyModifiers_testBit]
    simp [h1, h6, h7, h8, h9, Ne.symm h1, Ne.symm h6, Ne.symm h7, Ne.symm h8, Ne.symm h9]
  · rw [keyModifiers_testBit]
    simp [h2, h6, h10, h11, h12, Ne.symm h2, Ne.symm h6, Ne.symm h10, Ne.symm h11, Ne.symm h12]
  · rw [keyModifiers_testBit]
    simp [h3, h7, h10, h13, h14, Ne.symm h3, Ne.symm h7, Ne.symm h10, Ne.symm h13, Ne.symm h14]
  · rw [keyModifiers_testBit]
    simp [h4, h8, h11, h13, h15, Ne.symm h4, Ne.symm h8, Ne.symm h11, Ne.symm h13, Ne.symm h15]
  · rw [keyModifiers_testBit]
    simp [h5, h9, h12, h14, h15, Ne.symm h5, Ne.symm h9, Ne.symm h12, Ne.symm h14, Ne.symm h15]
  · intro i hi
    simp only [List.mem_cons, List.mem_singleton, not_or, List.not_mem_nil, not_false_eq_true,
      and_true] at hi
    obtain ⟨e1, e2, e3, e4, e5, e6⟩ := hi
    rw [keyModifiers_testBit]
    simp [Ne.symm e1, Ne.symm e2, Ne.symm e3, Ne.symm e4, Ne.symm e5, Ne.symm e6]
  · intro hnone
    simp [keyModifiers, hnone]

/-- Witness for C14: with the constants 1, 2, 4, 8, 16, 32 and only AltGr
held, the Ctrl and Alt bits are set and the Shift bit is not. -/
theorem keyModifiers_bits_witness :
    (keyModifiers laf_modifiers altgr_only).testBit 0 = false
    ∧ (keyModifiers laf_modifiers altgr_only).testBit 1 = true
    ∧ (keyModifiers laf_modifiers altgr_only).testBit 2 = true :=
  ⟨(keyModifiers_bits 0 1 2 3 4 5 (by decide) altgr_only).1,
    (keyModifiers_bits 0 1 2 3 4 5 (by decide) altgr_only).2.1,
    (keyModifiers_bits 0 1 2 3 4 5 (by decide) altgr_only).2.2.1⟩

/-! ## Repacking into the destination layout -/

theorem shiftRight_or (x y s : Nat) : (x ||| y) >>> s = (x >>> s) ||| (y >>> s) := by
  apply Nat.eq_of_testBit_eq
  intro i
  simp

theorem or_and_right (x y m : Nat) : (x ||| y) &&& m = (x &&& m) ||| (y &&& m) := by
  apply Nat.eq_of_testBit_eq
  intro i
  simp only [Nat.testBit_and, Nat.testBit_or]
  cases x.testBit i <;> cases y.testBit i <;> cases m.testBit i <;> rfl

/-- The byte at shift `s` of a byte placed at shift `t`, for shifts that are
equal or at least 8 apart. -/
theorem field_decode (x t s : Nat) (hx : x < 256) (h : t = s ∨ t + 8 ≤ s ∨ s + 8 ≤ t) :
    ((x <<< t) >>> s) &&& 255 = if t = s then x else 0 := by
  have h255 : (255 : Nat) = 2 ^ 8 - 1 := by decide
  rw [h255, Nat.and_pow_two_sub_one_eq_mod]
  rcases h with h | h | h
  · subst h
    rw [if_pos rfl, Nat.shiftLeft_shiftRight]
    exact Nat.mod_eq_of_lt hx
  · rw [if_neg (by omega), Nat.shiftLeft_eq, Nat.shiftRight_eq_div_pow]
    have h1 : x * 2 ^ t < 2 ^ s := by
      calc x * 2 ^ t < 256 * 2 ^ t := Nat.mul_lt_mul_of_pos_right hx (Nat.two_pow_pos t)
        _ = 2 ^ (t + 8) := by rw [Nat.pow_add]; omega
        _ ≤ 2 ^ s := Nat.pow_le_pow_right (by decide) h
    rw [Nat.div_eq_of_lt h1]
  · rw [if_neg (by omega)]
    obtain ⟨k, hk⟩ : ∃ k, t = (8 + k) + s := ⟨t - s - 8, by omega⟩
    rw [hk, Nat.shiftLeft_add, Nat.shiftLeft_shiftRight, Nat.shiftLeft_eq, Nat.pow_add]
    have : x * (2 ^ 8 * 2 ^ k) = 2 ^ 8 * (x * 2 ^ k) := by ring
    rw [this, Nat.mul_mod_right]

theorem to_u32_byte (i : Int) (h0 : 0 ≤ i) (h255 : i ≤ 255) :
    to_u32 i < 256 ∧ ((to_u32 i : Nat) : Int) = i := by
  unfold to_u32
  have h1 : i % 2 ^ 32 = i := Int.emod_eq_of_lt h0 (by omega)
  rw [h1]
  constructor
  · omega
  · exact Int.toNat_of_nonneg h0

theorem pack_nat_decodes (r g b a rs gs bs ashift s : Nat)
    (hr : r < 256) (hg : g < 256) (hb : b < 256) (ha : a < 256)
    (h1 : rs = 0 ∨ rs = 8 ∨ rs = 16 ∨ rs = 24) (h2 : gs = 0 ∨ gs = 8 ∨ gs = 16 ∨ gs = 24)
    (h3 : bs = 0 ∨ bs = 8 ∨ bs = 16 ∨ bs = 24)
    (h4 : ashift = 0 ∨ ashift = 8 ∨ ashift = 16 ∨ ashift = 24)
    (hs : s = 0 ∨ s = 8 ∨ s = 16 ∨ s = 24) :
    ((((r <<< rs) ||| (g <<< gs) ||| (b <<< bs) ||| (a <<< ashift)) % 2 ^ 32) >>> s) &&& 255
      = (if rs = s then r else 0) ||| (if gs = s then g else 0) ||| (if bs = s then b else 0)
        ||| (if ashift = s then a else 0) := by
  have hlt : ∀ x t : Nat, x < 256 → (t = 0 ∨ t = 8 ∨ t = 16 ∨ t = 24) → x <<< t < 2 ^ 32 := by
    intro x t hx ht
    rw [Nat.shiftLeft_eq]
    rcases ht with rfl | rfl | rfl | rfl <;> omega
  have hP : ((r <<< rs) ||| (g <<< gs) ||| (b <<< bs) ||| (a <<< ashift)) < 2 ^ 32 :=
    Nat.or_lt_two_pow (Nat.or_lt_two_pow (Nat.or_lt_two_pow (hlt r rs hr h1) (hlt g gs hg h2))
      (hlt b bs hb h3)) (hlt a ashift ha h4)
  rw [Nat.mod_eq_of_lt hP]
  simp only [shiftRight_or, or_and_right]
  rw [field_decode r rs s hr (by omega), field_decode g gs s hg (by omega),
    field_decode b bs s hb (by omega), field_decode a ashift s ha (by omega)]

/-- C16: for channels r, g, b, a in 0..255 and a destination format whose
four shifts are pairwise distinct members of {0, 8, 16, 24}, the pixel
written by `makeSurface` decodes back to the same values:
`(pixel >> shift_X) & 0xFF = X` for each channel X. -/
theorem pack_decodes (sfd : SurfaceFormatData) (px : RGBA)
    (hr : 0 ≤ px.r ∧ px.r ≤ 255) (hg : 0 ≤ px.g ∧ px.g ≤ 255)
    (hb : 0 ≤ px.b ∧ px.b ≤ 255) (ha : 0 ≤ px.a ∧ px.a ≤ 255)
    (h1 : sfd.redShift ∈ [0, 8, 16, 24]) (h2 : sfd.greenShift ∈ [0, 8, 16, 24])
    (h3 : sfd.blueShift ∈ [0, 8, 16, 24]) (h4 : sfd.alphaShift ∈ [0, 8, 16, 24])
    (hd : [sfd.redShift, sfd.greenShift, sfd.blueShift, sfd.alphaShift].Nodup) :
    (((pack sfd px >>> sfd.redShift) &&& 0xFF : Nat) : Int) = px.r
    ∧ (((pack sfd px >>> sfd.greenShift) &&& 0xFF : Nat) : Int) = px.g
    ∧ (((pack sfd px >>> sfd.blueShift) &&& 0xFF : Nat) : Int) = px.b
    ∧ (((pack sfd px >>> sfd.alphaShift) &&& 0xFF : Nat) : Int) = px.a := by
  obtain ⟨lr, er⟩ := to_u32_byte px.r hr.1 hr.2
  obtain ⟨lg, eg⟩ := to_u32_byte px.g hg.1 hg.2
  obtain ⟨lb, eb⟩ := to_u32_byte px.b hb.1 hb.2
  obtain ⟨la, ea⟩ := to_u32_byte px.a ha.1 ha.2
  simp only [List.mem_cons, List.mem_singleton, List.not_mem_nil, or_false] at h1 h2 h3 h4
  simp only [List.nodup_cons, List.mem_cons, List.mem_singleton, not_or, List.not_mem_nil,
    not_false_eq_true, List.nodup_nil, and_true] at hd
  obtain ⟨⟨d1, d2, d3⟩, ⟨d4, d5⟩, d6⟩ := hd
  unfold pack
  refine ⟨?_, ?_, ?_, ?_⟩
  · rw [pack_nat_decodes _ _ _ _ _ _ _ _ _ lr lg lb la h1 h2 h3 h4 h1]
    simp [Ne.symm d1, Ne.symm d2, Ne.symm d3, er]
  · rw [pack_nat_decodes _ _ _ _ _ _ _ _ _ lr lg lb la h1 h2 h3 h4 h2]
    simp [d1, Ne.symm d4, Ne.symm d5, eg]
  · rw [pack_nat_decodes _ _ _ _ _ _ _ _ _ lr lg lb la h1 h2 h3 h4 h3]
    simp [d2, d4, Ne.symm d6, eb]
  · rw [pack_nat_decodes _ _ _ _ _ _ _ _ _ lr lg lb la h1 h2 h3 h4 h4]
    simp [d3, d5, d6, ea]

/-- Witness for C16: the channels (16, 32, 48, 255) in the layout R, G, B, A
of the blank allocator. -/
theorem pack_decodes_witness :
    (((pack (blank_surface 1 1).format { r := 16, g := 32, b := 48, a := 255 }
        >>> (blank_surface 1 1).format.blueShift) &&& 0xFF : Nat) : Int) = 48 :=
  (pack_decodes (blank_surface 1 1).format { r := 16, g := 32, b := 48, a := 255 }
    (by decide) (by decide) (by decide) (by decide) (by decide) (by decide) (by decide)
    (by decide) (by decide)).2.2.1

/-! ## The bytes read from the source -/

theorem mem_scan_columns_reads (spec : image_spec) (off : Nat) :
    ∀ (n src : Nat), off ∈ scan_columns_reads spec n src →
      ∃ k, k < n ∧ off ∈ get_rgba_reads spec (src + k * (spec.bits_per_pixel / 8)) := by
  intro n
  induction n with
  | zero => intro src h; cases h
  | succ n ih =>
    intro src h
    rw [scan_columns_reads, List.mem_append] at h
    rcases h with h | h
    · exact ⟨0, by omega, by simpa using h⟩
    · obtain ⟨k, hk, hmem⟩ := ih _ h
      refine ⟨k + 1, by omega, ?_⟩
      have e : src + (k + 1) * (spec.bits_per_pixel / 8)
          = src + spec.bits_per_pixel / 8 + k * (spec.bits_per_pixel / 8) := by
        rw [Nat.succ_mul]
        omega
      rw [e]
      exact hmem

theorem mem_scan_rows_reads (spec : image_spec) (off : Nat) :
    ∀ (n v : Nat), off ∈ scan_rows_reads spec n v →
      ∃ j k, j < n ∧ k < spec.width
        ∧ off ∈ get_rgba_reads spec
            ((v + j) * spec.bytes_per_row + k * (spec.bits_per_pixel / 8)) := by
  intro n
  induction n with
  | zero => intro v h; cases h
  | succ n ih =>
    intro v h
    rw [scan_rows_reads, List.mem_append] at h
    rcases h with h | h
    · obtain ⟨k, hk, hmem⟩ := mem_scan_columns_reads spec off _ _ h
      exact ⟨0, k, by omega, hk, by simpa using hmem⟩
    · obtain ⟨j, k, hj, hk, hmem⟩ := ih _ h
      refine ⟨j + 1, k, by omega, hk, ?_⟩
      have e : v + (j + 1) = v + 1 + j := by omega
      rw [e]
      exact hmem

/-- The 16-bit and 32-bit paths stay inside a buffer of
`height * bytes_per_row` bytes whose rows hold at least `width` pixels. -/
theorem makeSurface_reads_in_bounds (spec : image_spec)
    (hbpp : spec.bits_per_pixel = 16 ∨ spec.bits_per_pixel = 32)
    (hrow : spec.width * (spec.bits_per_pixel / 8) ≤ spec.bytes_per_row) :
    ∀ off ∈ makeSurface_reads spec, off < spec.height * spec.bytes_per_row := by
  intro off hoff
  unfold makeSurface_reads at hoff
  rw [if_neg (by omega)] at hoff
  obtain ⟨j, k, hj, hk, hmem⟩ := mem_scan_rows_reads spec off _ _ hoff
  rw [Nat.zero_add] at hmem
  have hrows : (j + 1) * spec.bytes_per_row ≤ spec.height * spec.bytes_per_row :=
    Nat.mul_le_mul_right _ hj
  rw [Nat.succ_mul] at hrows
  have hcols : (k + 1) * (spec.bits_per_pixel / 8) ≤ spec.width * (spec.bits_per_pixel / 8) :=
    Nat.mul_le_mul_right _ hk
  rw [Nat.succ_mul] at hcols
  rcases hbpp with h16 | h32
  · have hstep : spec.bits_per_pixel / 8 = 2 := by rw [h16]
    rw [hstep] at hcols hrow hmem
    unfold get_rgba_reads at hmem
    rw [if_neg (by omega), if_neg (by omega)] at hmem
    simp only [load_u16_reads, List.mem_cons, List.mem_singleton, List.not_mem_nil,
      or_false] at hmem
    omega
  · have hstep : spec.bits_per_pixel / 8 = 4 := by rw [h32]
    rw [hstep] at hcols hrow hmem
    unfold get_rgba_reads at hmem
    rw [if_pos h32] at hmem
    simp only [load_u32_reads, List.mem_cons, List.mem_singleton, List.not_mem_nil,
      or_false] at hmem
    omega

/-- C19 fails on the 24-bit path: for the 1x1 24-bit image whose row is
exactly its three pixel bytes (`bytes_per_row = width * 3`, buffer of
`1 * 3 = 3` bytes), `makeSurface` reads the offsets 0, 1, 2 and 3, and
offset 3 lies outside the buffer. -/
theorem makeSurface_reads_past_end :
    tight24_spec.bits_per_pixel = 24
    ∧ tight24_spec.width * (tight24_spec.bits_per_pixel / 8) ≤ tight24_spec.bytes_per_row
    ∧ makeSurface_reads tight24_spec = [0, 1, 2, 3]
    ∧ 3 ∈ makeSurface_reads tight24_spec
    ∧ ¬ 3 < tight24_spec.height * tight24_spec.bytes_per_row := by
  decide

/-! ## The life cycle of the registry -/

/-- What holds between complete operations: the objects made and not torn
down are exactly the registered one, a registered instance has the flag
clear, and every logged drain or handler started in the phase Destroying. -/
theorem reachable_invariant (env : Env) (w : World) (live : List Nat)
    (h : Reachable env w live) :
    live = w.g_instance.toList
    ∧ (w.g_instance ≠ none → w.g_is_being_destroyed = false)
    ∧ ∀ c ∈ w.log, c.phase = none ∨ c.phase = some Phase.Destroying := by
  induction h with
  | initial => exact ⟨rfl, fun _ => rfl, fun c hc => by cases hc⟩
  | make w w1 live id _ hmake ih =>
    obtain ⟨hlive, _, hlog⟩ := ih
    have hnone : w.g_instance = none := by
      by_contra hne
      unfold System_make at hmake
      rw [if_pos hne] at hmake
      cases hmake
    obtain ⟨pre, b, rest, _, _, _, hfirst⟩ := System_make_first env w hnone
    rw [hfirst] at hmake
    simp only [Except.ok.injEq, Prod.mk.injEq, Option.some.injEq] at hmake
    obtain ⟨hid, hw1⟩ := hmake
    subst hw1
    subst hid
    refine ⟨?_, fun _ => rfl, ?_⟩
    · rw [hlive, hnone]
      rfl
    · intro c hc
      rcases List.mem_append.mp hc with hc | hc
      · exact hlog c hc
      · obtain ⟨x, _, rfl⟩ := List.mem_map.mp hc
        exact Or.inl rfl
  | release w w1 live d this _ hmem hrel ih =>
    obtain ⟨hlive, _, hlog⟩ := ih
    have hreg : w.g_instance = some this := by
      rw [hlive] at hmem
      cases hinst : w.g_instance with
      | none => rw [hinst] at hmem; cases hmem
      | some x =>
        rw [hinst] at hmem
        simp only [Option.toList, List.mem_singleton] at hmem
        rw [hmem]
    have e := release_last_spec d this w w1 hreg hrel
    subst e
    refine ⟨?_, fun hne => absurd rfl hne, ?_⟩
    · rw [hlive, hreg]
      simp [torn_down, Option.toList]
    · intro c hc
      rcases List.mem_append.mp hc with hc | hc
      · exact hlog c hc
      · rcases List.mem_cons.mp hc with rfl | hc
        · exact Or.inr rfl
        · rw [List.eq_of_mem_replicate hc]
          exact Or.inr rfl
  | post w live q _ ih => exact ih

/-- C15: in every state reached from the initial state by complete `make()`
and teardown operations (and posted events) the registry pointer is non-null
exactly for the one object made and not torn down; the state is Absent or
Alive, with the flag clear whenever an instance is registered; `make()`
leads from Absent to Alive; a teardown leads from Alive to Absent through
drain and handler calls that all start in Destroying, pointer registered and
flag set; and so did every drain and handler before. -/
theorem registry_life_cycle (env : Env) (w : World) (live : List Nat)
    (h : Reachable env w live) :
    (∀ id, w.g_instance = some id ↔ id ∈ live)
    ∧ (w.g_instance = none ↔ live = [])
    ∧ phase w.g_instance w.g_is_being_destroyed ≠ Phase.Destroying
    ∧ (w.g_instance ≠ none → w.g_is_being_destroyed = false)
    ∧ (∀ c ∈ w.log, c.phase = none ∨ c.phase = some Phase.Destroying)
    ∧ (∀ id w1, System_make env w = Except.ok (some id, w1) →
        phase w.g_instance w.g_is_being_destroyed = Phase.Absent
        ∧ phase w1.g_instance w1.g_is_being_destroyed = Phase.Alive)
    ∧ (∀ d this w1, this ∈ live → release_last d this w = Except.ok w1 →
        phase w.g_instance w.g_is_being_destroyed = Phase.Alive
        ∧ phase w1.g_instance w1.g_is_being_destroyed = Phase.Absent
        ∧ ∃ calls, calls ≠ [] ∧ w1.log = w.log ++ calls
            ∧ ∀ c ∈ calls, c.phase = some Phase.Destroying) := by
  obtain ⟨hlive, hflag, hlog⟩ := reachable_invariant env w live h
  refine ⟨?_, ?_, ?_, hflag, hlog, ?_, ?_⟩
  · intro id
    rw [hlive]
    cases w.g_instance <;> simp [Option.toList, eq_comm]
  · rw [hlive]
    cases w.g_instance <;> simp [Option.toList]
  · cases hinst : w.g_instance with
    | none => simp [phase]
    | some x =>
      have := hflag (by simp [hinst])
      simp [phase, this]
  · intro id w1 hmake
    have hnone : w.g_instance = none := by
      by_contra hne
      unfold System_make at hmake
      rw [if_pos hne] at hmake
      cases hmake
    obtain ⟨pre, b, rest, _, _, _, hfirst⟩ := System_make_first env w hnone
    rw [hfirst] at hmake
    simp only [Except.ok.injEq, Prod.mk.injEq, Option.some.injEq] at hmake
    obtain ⟨_, hw1⟩ := hmake
    subst hw1
    exact ⟨by rw [hnone]; rfl, rfl⟩
  · intro d this w1 hmem hrel
    have hreg : w.g_instance = some this := by
      rw [hlive] at hmem
      cases hinst : w.g_instance with
      | none => rw [hinst] at hmem; cases hmem
      | some x =>
        rw [hinst] at hmem
        simp only [Option.toList, List.mem_singleton] at hmem
        rw [hmem]
    have e := release_last_spec d this w w1 hreg hrel
    subst e
    refine ⟨?_, rfl, _, List.cons_ne_nil _ _, rfl, ?_⟩
    · rw [hreg, hflag (by simp [hreg])]
      rfl
    · intro c hc
      rcases List.mem_cons.mp hc with rfl | hc
      · rfl
      · rw [List.eq_of_mem_replicate hc]
        rfl

theorem alive_world_reachable : Reachable headless_env alive_world [0] :=
  Reachable.make World.initial alive_world [] 0 Reachable.initial rfl

theorem gone_world_reachable : Reachable headless_env gone_world [] :=
  Reachable.release alive_world gone_world [0] true 0 alive_world_reachable
    (List.mem_singleton.mpr rfl) rfl

/-- Witness for C15: after the first `make()` of a headless process object 0
is registered and the state is Alive; after its teardown nothing is
registered and the drain it logged started in Destroying. -/
theorem registry_life_cycle_witness :
    (alive_world.g_instance = some 0 ↔ 0 ∈ [0])
    ∧ (gone_world.g_instance = none ↔ ([] : List Nat) = [])
    ∧ (∀ c ∈ gone_world.log, c.phase = none ∨ c.phase = some Phase.Destroying) :=
  ⟨(registry_life_cycle headless_env alive_world [0] alive_world_reachable).1 0,
    (registry_life_cycle headless_env gone_world [] gone_world_reachable).2.1,
    (registry_life_cycle headless_env gone_world [] gone_world_reachable).2.2.2.2.1⟩

end os

namespace text

/-! ## `text::Font` -/

/-- C20: for every font `hasCodePoint(cp)` is true iff `codePointToGlyph(cp)`
is not 0; a freshly constructed font has a null fallback; after
`setFallback(f)` the accessor `fallback()` returns `f`, and `setFallback`
changes neither the glyph map nor the state of the derived class. -/
theorem Font_fallback_contract {Derived : Type} (f : Font Derived) (cp : Nat)
    (font : Option Nat) (glyphs : Nat → Nat) (d : Derived) :
    (f.hasCodePoint cp = true ↔ f.codePointToGlyph cp ≠ 0)
    ∧ (Font.create glyphs d).fallback = none
    ∧ (f.setFallback font).fallback = font
    ∧ (f.setFallback font).codePointToGlyph = f.codePointToGlyph
    ∧ (f.setFallback font).derived = f.derived
    ∧ ((f.setFallback font).hasCodePoint cp = f.hasCodePoint cp) := by
  refine ⟨?_, rfl, rfl, rfl, rfl, rfl⟩
  unfold Font.hasCodePoint
  simp

/-- Witness for C20: the font with capitals only has code point 65 and not
97, and keeps that after its fallback is set to object 7. -/
theorem Font_fallback_contract_witness :
    capitals_font.hasCodePoint 65 = true
    ∧ capitals_font.fallback = none
    ∧ (capitals_font.setFallback (some 7)).fallback = some 7 :=
  ⟨(Font_fallback_contract capitals_font 65 (some 7) capitals_font.codePointToGlyph ()).1.mpr
      (by decide),
    (Font_fallback_contract capitals_font 65 (some 7) capitals_font.codePointToGlyph ()).2.1,
    (Font_fallback_contract capitals_font 65 (some 7) capitals_font.codePointToGlyph ()).2.2.1⟩

end text
